import Mathlib

/-!
Shallow embedding of the gcutil command-line client (gcutil-1.7.1,
`lib/google_compute_engine/gcutil/`), covering:

* `utils.All` — the pagination loop (utils.py);
* `MoveInstancesBase._ExtractAvailableQuota` / `_CheckQuotas` — quota
  arithmetic (move_cmds.py);
* `MoveInstances.HandleMove` / `_WriteLog` and `ResumeMove.HandleMove` /
  `_ParseLog` / `_GetKey` / `_Intersect` / `_Subtract` — the move/resume
  saga and its replay log (move_cmds.py);
* `GoogleComputeCommand.ExecuteRequests`, `WaitForOperation`, `Run`,
  `_ErrorInResult` (command_base.py);
* `GoogleComputeListCommand.Handle` / `_PrintList` (command_base.py).

Numeric quota values (Python ints/floats) are embedded as `Int`: every
operation the code performs on them (subtraction, addition, `min`,
comparison with 0) is exact, ordered-ring arithmetic.  Python dicts are
embedded as association lists with insert-or-replace update; JSON
round-tripping through the log file is embedded as the identity on the
stored JSON value.
-/

namespace Gcutil

/-! ### Python dict primitives (insert-or-replace association lists) -/

/-- `d[k] = v` on a Python dict: replace the binding in place if the key
is present, otherwise append it. -/
def dinsert {β : Type} (k : String) (v : β) : List (String × β) → List (String × β)
  | [] => [(k, v)]
  | (k', v') :: rest => if k' = k then (k, v) :: rest else (k', v') :: dinsert k v rest

/-- `d.get(k)` on a Python dict. -/
def dget? {β : Type} (k : String) : List (String × β) → Option β
  | [] => none
  | (k', v') :: rest => if k' = k then some v' else dget? k rest

/-- Key set of a Python dict. -/
def dkeys {β : Type} (d : List (String × β)) : List String :=
  d.map Prod.fst

/-! ### utils.All — the pagination loop (utils.py, lines 165-201) -/

/-- One server response to a `list` call: its `items`, its optional
`nextPageToken`, and its `kind`. -/
structure Page (α : Type) where
  items : List α
  nextPageToken : Option String
  kind : Option String
deriving DecidableEq, Repr

/-- The sequence of responses the `while True` loop in `utils.All`
receives: the server's successive pages are consumed in order, and the
loop breaks after the first response that carries no `nextPageToken`. -/
def fetchedPages {α : Type} : List (Page α) → List (Page α)
  | [] => []
  | p :: rest =>
    p :: (match p.nextPageToken with
          | none => []
          | some _ => fetchedPages rest)

/-- The result of `utils.All`: `kind` from the last response seen and
the concatenated `items`. -/
structure ListResult (α : Type) where
  kind : Option String
  items : List α

/-- `utils.All func project max_results ...` with the server's page
stream made explicit: `items.extend(res.get('items', []))` accumulated
over every response received, then truncated to `max_results` when that
argument is not `None`. -/
def All {α : Type} (pages : List (Page α)) (max_results : Option Nat) : ListResult α :=
  let resps := fetchedPages pages
  let items := (resps.map Page.items).flatten
  let items :=
    match max_results with
    | some m => items.take m
    | none => items
  { kind := (resps.getLast?).bind Page.kind, items := items }

/-! ### Quota arithmetic (move_cmds.py, lines 378-436) -/

/-- One entry of a `quotas` list on a project or zone resource. -/
structure Quota where
  metric : String
  limit : Int
  usage : Int

/-- One iteration of the `for quota in project_quota` loop of
`_ExtractAvailableQuota`: store `limit - usage`, plus the requirement
for every metric except `'SNAPSHOTS'` (those resources will be deleted
shortly, freeing their quota). -/
def projectQuotaStep (requirements : List (String × Int))
    (avail : List (String × Int)) (q : Quota) : List (String × Int) :=
  if q.metric ∈ requirements.map Prod.fst then
    dinsert q.metric
      (if q.metric = "SNAPSHOTS" then q.limit - q.usage
       else q.limit - q.usage + ((dget? q.metric requirements).getD 0)) avail
  else avail

/-- One iteration of the `for quota in zone_quota` loop: `available[metric]`
is a plain subscript, so `none` on a missing key. -/
def zoneQuotaStep (requirements : List (String × Int))
    (avail : List (String × Int)) (q : Quota) : Option (List (String × Int)) :=
  if q.metric ∈ requirements.map Prod.fst then
    match dget? q.metric avail with
    | some cur => some (dinsert q.metric (min cur (q.limit - q.usage)) avail)
    | none => none
  else some avail

/-- `MoveInstancesBase._ExtractAvailableQuota`: the project-quota loop
starting from an empty dict, then the zone-quota loop taking the `min`
with the zone's `limit - usage`.  The lookup `available[metric]` in the
zone loop is a plain subscript in the source, so a missing key is a
`KeyError`: the embedding returns `none` there. -/
def extractAvailableQuota (project_quota zone_quota : List Quota)
    (requirements : List (String × Int)) : Option (List (String × Int)) :=
  let available := project_quota.foldl (projectQuotaStep requirements) []
  zone_quota.foldlM (zoneQuotaStep requirements) available

/-- `MoveInstancesBase._CheckQuotas`, reduced to its decision: `some
true` when the loop over `requirements` raises `CommandError` (i.e.
`available.get(metric, 0) - required < 0` for some metric), `some false`
when it passes, `none` when `_ExtractAvailableQuota` itself fails with a
`KeyError`. -/
def checkQuotas (project_quota zone_quota : List Quota)
    (requirements : List (String × Int)) : Option Bool :=
  (extractAvailableQuota project_quota zone_quota requirements).map
    (fun available =>
      requirements.any (fun p => (dget? p.1 available).getD 0 - p.2 < 0))

/-! ### Instance resources (move_cmds.py) -/

/-- An entry of an instance resource's `disks` list: the fields
`move_cmds.py` reads (`disk['type']`, `disk['source']`). -/
structure AttachedDisk where
  type : String
  source : String
deriving DecidableEq, Repr

/-- An instance resource, restricted to the fields the move commands
read: `name`, `zone` and `disks`. -/
structure InstanceRes where
  name : String
  zone : String
  disks : List AttachedDisk
deriving DecidableEq, Repr

/-- `split('/')` on a character list: the list of segments between the
slash characters (always non-empty). -/
def splitOnSlash : List Char → List (List Char)
  | [] => [[]]
  | c :: rest =>
    match splitOnSlash rest with
    | [] => [[]]
    | cur :: parts =>
      if c = Char.ofNat 47 then [] :: cur :: parts else (c :: cur) :: parts

/-- `disk['source'].split('/')[-1]`: the last path segment of a resource
URL. -/
def lastPathComponent (s : String) : String :=
  String.mk ((splitOnSlash s.data).getLastD [])

/-- `MoveInstances._GetPersistentDiskNames`: the last path segment of
`disk['source']` for every `PERSISTENT` disk of every instance. -/
def getPersistentDiskNames (instances : List InstanceRes) : List String :=
  instances.flatMap (fun i =>
    (i.disks.filter (fun d => d.type = "PERSISTENT")).map
      (fun d => lastPathComponent d.source))

/-- `ResumeMove._Intersect`: `set(resources1) & set(resources2)` based
on the `name` field — the elements of `resources2` whose name occurs in
`resources1`. -/
def intersectByName (resources1 resources2 : List InstanceRes) : List InstanceRes :=
  resources2.filter (fun r => r.name ∈ resources1.map InstanceRes.name)

/-- `ResumeMove._Subtract`: `set(resources1) - set(resources2)` based on
the `name` field — the elements of `resources1` whose name does not
occur in `resources2`. -/
def subtractByName (resources1 resources2 : List InstanceRes) : List InstanceRes :=
  resources1.filter (fun r => r.name ∉ resources2.map InstanceRes.name)

/-! ### The replay log (move_cmds.py, lines 664-728) -/

/-- A JSON value as stored in the move log: the log's values are a
version string, the two zone strings, the list of instance resources
and the disk-to-snapshot name map.  `jnull` stands for JSON `null`
(Python `None`), which `_GetKey` rejects. -/
inductive JVal where
  | jnull : JVal
  | jstr : String → JVal
  | jinsts : List InstanceRes → JVal
  | jmap : List (String × String) → JVal
deriving DecidableEq, Repr

/-- The dict `MoveInstances._WriteLog` serialises with `json.dump` (its
key order is as in the source's dict literal). -/
def writeLogContents (ver src_zone dest_zone : String)
    (instances_to_mv : List InstanceRes)
    (snapshot_mappings : List (String × String)) : List (String × JVal) :=
  [("version", JVal.jstr ver),
   ("dest_zone", JVal.jstr dest_zone),
   ("src_zone", JVal.jstr src_zone),
   ("instances", JVal.jinsts instances_to_mv),
   ("snapshot_mappings", JVal.jmap snapshot_mappings)]

/-- `ResumeMove._ParseLog`: `json.load` of what `json.dump` wrote is the
stored value itself, so parsing is the identity on the log contents. -/
def parseLog (fileContents : List (String × JVal)) : List (String × JVal) :=
  fileContents

/-- `ResumeMove._GetKey`: `log.get(key)`, raising `CommandError` (here
`none`) when the key is absent — `log.get` returns `None` — or when the
stored value is JSON `null`, since the source tests `value is None`. -/
def getKey (log : List (String × JVal)) (key : String) : Option JVal :=
  match dget? key log with
  | none => none
  | some v => if v = JVal.jnull then none else some v

/-! ### GoogleComputeCommand.ExecuteRequests (command_base.py, lines 1213-1245) -/

/-- The completed execution of one request in the thread pool: it either
raised an exception or returned a result, and a result may itself be a
list (those are `extend`ed rather than `append`ed). -/
inductive BatchOutcome (ε ρ : Type) where
  | raised (e : ε)
  | single (r : ρ)
  | multi (rs : List ρ)
deriving DecidableEq, Repr

/-- Contribution of one finished operation to the `results` list. -/
def opResults {ε ρ : Type} : BatchOutcome ε ρ → List ρ
  | .raised _ => []
  | .single r => [r]
  | .multi rs => rs

/-- Contribution of one finished operation to the `exceptions` list. -/
def opExceptions {ε ρ : Type} : BatchOutcome ε ρ → List ε
  | .raised e => [e]
  | .single _ => []
  | .multi _ => []

/-- `GoogleComputeCommand.ExecuteRequests` after `tp.WaitShutdown()`:
walk the finished operations in submission order and split them into
`(results, exceptions)`. -/
def executeRequests {ε ρ : Type} : List (BatchOutcome ε ρ) → List ρ × List ε
  | [] => ([], [])
  | op :: rest =>
    let acc := executeRequests rest
    (opResults op ++ acc.1, opExceptions op ++ acc.2)

/-! ### GoogleComputeCommand.WaitForOperation (command_base.py, lines 1247-1319) -/

/-- An operation resource as seen by the polling loop: its `status` and
its `name` (the rest of the resource rides along unmodified). -/
structure Operation where
  status : String
  name : String
deriving DecidableEq, Repr

/-- The `while result['status'] != 'DONE'` loop of `WaitForOperation`.
`polls k` is the operation returned by the `k`-th poll request, `elapsed`
is `timer.time() - start_time` (the model advances it by exactly the
sleep amount per iteration), and `fuel` bounds the number of iterations
so the embedding is total — `none` means the bound was hit, and every
theorem below is stated for runs in which it was not.  The returned data
are the final operation, the list of sleep durations performed, and the
list of operations received from the polls, in order. -/
def waitForOperationLoop (sleep_between_polls max_wait_time : Nat)
    (polls : Nat → Operation) :
    Nat → Nat → Nat → Operation → Option (Operation × List Nat × List Operation)
  | 0, _, _, _ => none
  | fuel + 1, k, elapsed, result =>
    if result.status = "DONE" then some (result, [], [])
    else if max_wait_time ≤ elapsed then some (result, [], [])
    else
      match waitForOperationLoop sleep_between_polls max_wait_time polls
          fuel (k + 1) (elapsed + sleep_between_polls) (polls k) with
      | some (r, sleeps, polled) =>
        some (r, sleep_between_polls :: sleeps, polls k :: polled)
      | none => none

/-! ### GoogleComputeCommand.Run and _ErrorInResult (command_base.py, lines 1033-1122) -/

/-- An operation as `_ErrorInResult` inspects it:
`op.get('error', {}).get('errors', [])`. -/
structure OpRep where
  errorEntries : List String
deriving DecidableEq, Repr

/-- The `result` value `Run` receives back: an operation resource, a
list resource, or anything else (for which `_ErrorInResult` inspects no
operations). -/
inductive RunResult where
  | opRes (op : OpRep)
  | listRes (items : List OpRep)
  | other
deriving DecidableEq, Repr

/-- The `ops` list `_ErrorInResult` builds: `[result]` for an operation
resource, `result.get('items', [])` for a list resource, `[]` otherwise. -/
def resultOperations : RunResult → List OpRep
  | .opRes op => [op]
  | .listRes items => items
  | .other => []

/-- `GoogleComputeCommand._ErrorInResult`: collect the operations in the
result and report an error exactly when, in synchronous mode, one of
them carries a non-empty `error.errors` list. -/
def errorInResult (synchronous_mode : Bool) (result : RunResult) : Bool :=
  (resultOperations result).any
    (fun op => synchronous_mode && !op.errorEntries.isEmpty)

/-- How the body of `GoogleComputeCommand.Run` ends: with an `HttpError`
from the HTTP layer, an `app.UsageError`, any other exception, or
normally with a `(result, exceptions)` pair. -/
inductive RunExec where
  | httpError
  | usageError
  | otherError
  | completed (result : RunResult) (exceptions : List String)
deriving DecidableEq, Repr

/-- `GoogleComputeCommand.Run`'s exit code.  `HttpError` is logged and
becomes 1; a bare exception is printed and becomes 1; `UsageError` is
re-raised to the application framework (`Except.error`); otherwise
`has_errors = bool(exceptions or error_in_result)` is returned, i.e. 1
when the exception list is non-empty or the result carries an error and
0 otherwise. -/
def run (synchronous_mode : Bool) : RunExec → Except Unit Nat
  | .httpError => Except.ok 1
  | .usageError => Except.error ()
  | .otherError => Except.ok 1
  | .completed result exceptions =>
    Except.ok (if exceptions ≠ [] ∨ errorInResult synchronous_mode result then 1 else 0)

/-! ### GoogleComputeListCommand._PrintList (command_base.py, lines 1775-1808) -/

/-- Python's `sorted(rows, key=key, reverse=reverse)`: a stable merge
sort; with `reverse=True` elements with equal keys still keep their
original relative order, so the comparison is `key b ≤ key a`. -/
def pySorted {α : Type} (key : α → String) (reverse : Bool) (l : List α) : List α :=
  l.mergeSort (fun a b =>
    if reverse then decide (key b ≤ key a) else decide (key a ≤ key b))

/-- The flags and class attributes `_PrintList` consults. -/
structure ListCmdConfig where
  summary_fields : List String
  default_sort_field : Option String
  sort_by : Option String
  max_results : Nat
  fetch_all_pages : Bool

/-- `sort_col.startswith('-')`: does the column name begin with a dash?
(Stated on the character list so that concrete instances evaluate.) -/
def startsWithDash (s : String) : Bool :=
  s.data.head? = some (Char.ofNat 45)

/-- `sort_col[1:]`: the column name with its first character removed. -/
def dropFirst (s : String) : String :=
  String.mk (s.data.drop 1)

/-- The effective sort column: `self._flags.sort_by or
getattr(self, 'default_sort_field', None)`. -/
def effectiveSortCol (cfg : ListCmdConfig) : Option String :=
  match cfg.sort_by with
  | some sc => some sc
  | none => cfg.default_sort_field

/-- `GoogleComputeListCommand._PrintList`, as a function from the
flattened rows to the rows finally handed to the table formatter: sort
by the selected column (descending when the column name starts with
`'-'`, ignored with a warning when the name is not a column), then
truncate to `max_results` unless `--fetch_all_pages` was given. -/
def printListRows (cfg : ListCmdConfig) (rows : List (List String)) : List (List String) :=
  let column_names := cfg.summary_fields
  let rows :=
    match effectiveSortCol cfg with
    | none => rows
    | some sort_col =>
      let reverse := startsWithDash sort_col
      let sort_col := if startsWithDash sort_col then dropFirst sort_col else sort_col
      if sort_col ∈ column_names then
        let sort_col_idx := column_names.indexOf sort_col
        pySorted (fun row => row.getD sort_col_idx "") reverse rows
      else rows
  if !cfg.fetch_all_pages then rows.take cfg.max_results else rows

/-! ### The move saga (move_cmds.py, MoveInstances.HandleMove, lines 494-569,
and ResumeMove.HandleMove, lines 730-819)

`HandleMove` is a straight-line sequence of REST calls; the embedding
records the calls as a trace.  Each batch step's success is an input of
the environment (it stands for "`ExecuteRequests` returned no exceptions
and `_CheckForErrorsInOps` found none"), which preserves exactly the
control flow of the source for every real outcome. -/

/-- One REST call (or replay-log file operation) the move commands
perform, with the resource names it addresses. -/
inductive MoveEvent where
  | getZone (zone : String)
  | listInstances (zone : String)
  | listDisks (zone : String)
  | listMachineTypes
  | listSnapshots
  | writeLog
  | deleteInstances (names : List String)
  | insertSnapshots (names : List String)
  | deleteDisks (names : List String)
  | insertDisks (names : List String)
  | insertInstances (names : List String)
  | deleteSnapshots (names : List String)
  | removeLog
deriving DecidableEq, Repr

/-- Is the event a REST mutation (an insert or delete of a cloud
resource)?  The log file operations and all list/get calls are not. -/
def MoveEvent.isMutation : MoveEvent → Bool
  | .deleteInstances _ => true
  | .insertSnapshots _ => true
  | .deleteDisks _ => true
  | .insertDisks _ => true
  | .insertInstances _ => true
  | .deleteSnapshots _ => true
  | _ => false

/-- How the command ends when it does not succeed: `app.UsageError` from
flag validation, an HTTP error propagating out of an `execute()`, or
`CommandError`. -/
inductive MoveErr where
  | usageError
  | httpError
  | commandError
deriving DecidableEq, Repr

/-- The environment of one `moveinstances` run: the flag values, the
responses the server would give to the list calls, and the outcome of
each subsequent step. -/
structure MoveEnv where
  source_zone : String
  destination_zone : String
  hasRegexes : Bool
  destZoneExists : Bool
  instancesInSrcMatching : List InstanceRes
  instancesInDestMatching : List InstanceRes
  instancesToIgnore : List InstanceRes
  quotaOk : Bool
  confirmOk : Bool
  snapshotNameFor : String → String
  deleteInstancesOk : Bool
  createSnapshotsOk : Bool
  snapshotsReady : Bool
  deleteDisksOk : Bool
  createDisksOk : Bool
  createInstancesOk : Bool
  keep_snapshots : Bool
  deleteSnapshotsOk : Bool

/-- `MoveInstances._CheckForDisksInUseByOtherInstances`, reduced to its
emptiness test (the caller only asks whether the result is empty). -/
def disksInUseByOtherInstances (instances : List InstanceRes)
    (disk_names : List String) : Bool :=
  instances.any (fun i =>
    i.disks.any (fun d =>
      d.type = "PERSISTENT" && lastPathComponent d.source ∈ disk_names))

/-- `MAX_INSTANCES_TO_MOVE` (move_cmds.py, line 39). -/
def MAX_INSTANCES_TO_MOVE : Nat := 100

/-- `MAX_DISKS_TO_MOVE` (move_cmds.py, line 40). -/
def MAX_DISKS_TO_MOVE : Nat := 100

/-- `MoveInstances._GenerateSnapshotNames` as a dict build: one snapshot
name per distinct disk name (the source draws a fresh UUID; the
environment supplies the name). -/
def generateSnapshotNames (env : MoveEnv) (disk_names : List String) :
    List (String × String) :=
  disk_names.foldl (fun m name => dinsert name (env.snapshotNameFor name) m) []

/-- Trace of `MoveInstances.HandleMove` up to the instance listings:
the destination-zone get and the two filtered instance list calls. -/
def moveT0 (env : MoveEnv) : List MoveEvent :=
  [.getZone env.destination_zone,
   .listInstances env.source_zone, .listInstances env.destination_zone]

/-- `moveT0` plus the `instances_to_ignore` list call. -/
def moveT1 (env : MoveEnv) : List MoveEvent :=
  moveT0 env ++ [.listInstances env.source_zone]

/-- `moveT1` plus the `_CheckQuotas` calls: the destination zone get and
the machine-type and disk list calls behind the requirements dict. -/
def moveT2 (env : MoveEnv) : List MoveEvent :=
  moveT1 env ++ [.getZone env.destination_zone, .listMachineTypes,
                 .listDisks env.source_zone]

/-- The pre-mutation phase of `MoveInstances.HandleMove`: validate
flags, check the destination zone, list the matching instances in both
zones, check instance preconditions, list the instances to ignore,
compute the persistent disk names, check disk preconditions, check
quotas and confirm.  Returns the trace of (read-only) calls and `none`
when every check passed. -/
def movePreChecks (env : MoveEnv) : List MoveEvent × Option MoveErr :=
  -- _ValidateFlags
  if env.source_zone = "" then ([], some .usageError)
  else if env.destination_zone = "" then ([], some .usageError)
  else if env.source_zone = env.destination_zone then ([], some .usageError)
  else if !env.hasRegexes then ([], some .usageError)
  -- _CheckDestinationZone
  else if !env.destZoneExists then ([.getZone env.destination_zone], some .httpError)
  -- _CheckInstancePreconditions
  else if env.instancesInSrcMatching = [] then (moveT0 env, some .commandError)
  else if MAX_INSTANCES_TO_MOVE < env.instancesInSrcMatching.length then
    (moveT0 env, some .commandError)
  else if (env.instancesInSrcMatching.map InstanceRes.name).any
      (fun n => n ∈ env.instancesInDestMatching.map InstanceRes.name) then
    (moveT0 env, some .commandError)
  -- _CheckDiskPreconditions
  else if MAX_DISKS_TO_MOVE <
      (getPersistentDiskNames env.instancesInSrcMatching).length then
    (moveT1 env, some .commandError)
  else if disksInUseByOtherInstances env.instancesToIgnore
      (getPersistentDiskNames env.instancesInSrcMatching) then
    (moveT1 env, some .commandError)
  -- _CheckQuotas / _Confirm
  else if !env.quotaOk then (moveT2 env, some .commandError)
  else if !env.confirmOk then (moveT2 env, some .commandError)
  else (moveT2 env, none)

/-- `disks_to_mv` of the `moveinstances` run. -/
def moveDiskNames (env : MoveEnv) : List String :=
  getPersistentDiskNames env.instancesInSrcMatching

/-- `snapshot_mappings` of the `moveinstances` run. -/
def moveSnapMappings (env : MoveEnv) : List (String × String) :=
  generateSnapshotNames env (moveDiskNames env)

/-- Mutation trace through `_WriteLog` and `_DeleteInstances`
(`instances_to_mv` is non-empty when this phase is reached). -/
def moveM1 (env : MoveEnv) : List MoveEvent :=
  [.writeLog,
   .deleteInstances (env.instancesInSrcMatching.map InstanceRes.name)]

/-- `moveM1` plus `_CreateSnapshots` and its `_WaitForSnapshots` poll
(skipped when there are no disks). -/
def moveM2 (env : MoveEnv) : List MoveEvent :=
  moveM1 env ++
    (if moveSnapMappings env = [] then []
     else [.insertSnapshots ((moveSnapMappings env).map Prod.snd), .listSnapshots])

/-- `moveM2` plus `_DeleteDisks`. -/
def moveM3 (env : MoveEnv) : List MoveEvent :=
  moveM2 env ++
    (if moveDiskNames env = [] then [] else [.deleteDisks (moveDiskNames env)])

/-- `moveM3` plus `_CreateDisksFromSnapshots`. -/
def moveM4 (env : MoveEnv) : List MoveEvent :=
  moveM3 env ++
    (if moveSnapMappings env = [] then []
     else [.insertDisks ((moveSnapMappings env).map Prod.fst)])

/-- `moveM4` plus `_CreateInstances`. -/
def moveM5 (env : MoveEnv) : List MoveEvent :=
  moveM4 env ++ [.insertInstances (env.instancesInSrcMatching.map InstanceRes.name)]

/-- `moveM5` plus `_DeleteSnapshots` (skipped when there are no
snapshots or `--keep_snapshots` was given). -/
def moveM6 (env : MoveEnv) : List MoveEvent :=
  moveM5 env ++
    (if moveSnapMappings env = [] || env.keep_snapshots then []
     else [.deleteSnapshots ((moveSnapMappings env).map Prod.snd)])

/-- The mutation phase of `MoveInstances.HandleMove`, entered once every
check passed: write the replay log, delete the source instances,
snapshot the disks (and poll the snapshots READY), delete the source
disks, recreate the disks from the snapshots, recreate the instances,
delete the snapshots, and remove the log.  Returns its own trace
segment, to be appended after the pre-check trace. -/
def moveMutations (env : MoveEnv) : List MoveEvent × Option MoveErr :=
  if !env.deleteInstancesOk then (moveM1 env, some .commandError)
  else if moveSnapMappings env ≠ [] && !env.createSnapshotsOk then
    (moveM2 env, some .commandError)
  else if moveSnapMappings env ≠ [] && !env.snapshotsReady then
    (moveM2 env, some .commandError)
  else if moveDiskNames env ≠ [] && !env.deleteDisksOk then
    (moveM3 env, some .commandError)
  else if moveSnapMappings env ≠ [] && !env.createDisksOk then
    (moveM4 env, some .commandError)
  else if !env.createInstancesOk then (moveM5 env, some .commandError)
  else if moveSnapMappings env ≠ [] && !env.keep_snapshots
      && !env.deleteSnapshotsOk then
    (moveM6 env, some .commandError)
  else
    -- os.remove(log_path)
    (moveM6 env ++ [.removeLog], none)

/-- `MoveInstances.HandleMove`: the trace of calls performed and how the
run ended (`none` = success) — the pre-check phase followed, when every
check passed, by the mutation phase. -/
def handleMove (env : MoveEnv) : List MoveEvent × Option MoveErr :=
  match movePreChecks env with
  | (t, some e) => (t, some e)
  | (t, none) =>
    let m := moveMutations env
    (t ++ m.1, m.2)

/-- The environment of one `resumemove` run.  The log contents are the
typed values `moveinstances` wrote (the write/parse round trip is proved
separately on `writeLogContents`/`parseLog`/`getKey`); the list results
and step outcomes are as in `MoveEnv`. -/
structure ResumeEnv where
  logExists : Bool
  loggedSrcZone : String
  loggedDestZone : String
  loggedInstances : List InstanceRes
  loggedSnapshotMappings : List (String × String)
  instancesInDest : List InstanceRes
  instancesInSource : List InstanceRes
  disksInDest : List String
  disksInSrc : List String
  currentSnapshots : List String
  allSnapshotsLater : List String
  quotaOk : Bool
  confirmOk : Bool
  deleteInstancesOk : Bool
  createSnapshotsOk : Bool
  snapshotsReady : Bool
  deleteDisksOk : Bool
  createDisksOk : Bool
  createInstancesOk : Bool
  keep_snapshots : Bool
  deleteSnapshotsOk : Bool
  keep_log_file : Bool

/-- `instances_to_mv` of the `resumemove` run: the logged instances
whose name is not among the destination zone's instances. -/
def resInstancesToMv (env : ResumeEnv) : List InstanceRes :=
  subtractByName env.loggedInstances env.instancesInDest

/-- `disks_to_mv` of the `resumemove` run: the logged disks still in the
source zone. -/
def resDisksToMv (env : ResumeEnv) : List String :=
  (dkeys env.loggedSnapshotMappings).filter (fun d => d ∈ env.disksInSrc)

/-- Trace of `ResumeMove.HandleMove` through the two instance listings. -/
def resT0 (env : ResumeEnv) : List MoveEvent :=
  [.listInstances env.loggedDestZone, .listInstances env.loggedSrcZone]

/-- `resT0` plus the two disk listings. -/
def resT1 (env : ResumeEnv) : List MoveEvent :=
  resT0 env ++ [.listDisks env.loggedDestZone, .listDisks env.loggedSrcZone]

/-- `resT1` plus the snapshot listing performed when unmoved disks
remain. -/
def resT2 (env : ResumeEnv) : List MoveEvent :=
  resT1 env ++ (if resDisksToMv env = [] then [] else [.listSnapshots])

/-- `resT2` plus the `_CheckQuotas` calls. -/
def resT3 (env : ResumeEnv) : List MoveEvent :=
  resT2 env ++ [.getZone env.loggedDestZone, .listMachineTypes,
                .listDisks env.loggedSrcZone]

/-- The pre-mutation phase of `ResumeMove.HandleMove`: check the log
file exists (its parsed, typed contents are the environment's `logged*`
fields), list both zones' instances, split the logged instances by name
into already-moved and still-to-move, fail if nothing is left to move,
list both zones' disks, list the snapshots when unmoved disks remain,
check quotas and confirm. -/
def resumePreChecks (env : ResumeEnv) : List MoveEvent × Option MoveErr :=
  if !env.logExists then ([], some .commandError)
  else if resInstancesToMv env = [] then (resT0 env, some .commandError)
  else if !env.quotaOk then (resT3 env, some .commandError)
  else if !env.confirmOk then (resT3 env, some .commandError)
  else (resT3 env, none)

/-- `instances_to_delete`: the still-to-move instances that also still
exist in the source zone. -/
def resInstancesToDelete (env : ResumeEnv) : List InstanceRes :=
  intersectByName (resInstancesToMv env) env.instancesInSource

/-- `snapshot_mappings_for_unmoved_disks`: the logged mappings whose
disk is unmoved and whose snapshot does not exist yet. -/
def resUnmovedSnaps (env : ResumeEnv) : List (String × String) :=
  if resDisksToMv env = [] then []
  else env.loggedSnapshotMappings.filter
    (fun p => p.1 ∈ resDisksToMv env && p.2 ∉ env.currentSnapshots)

/-- `disks_to_create`: the logged mappings whose snapshot now exists and
whose disk is not yet in the destination zone. -/
def resDisksToCreate (env : ResumeEnv) : List (String × String) :=
  env.loggedSnapshotMappings.filter
    (fun p => p.2 ∈ env.allSnapshotsLater && p.1 ∉ env.disksInDest)

/-- Mutation trace through `_DeleteInstances` (skipped when no
still-to-move instance exists in the source zone). -/
def resM1 (env : ResumeEnv) : List MoveEvent :=
  if resInstancesToDelete env = [] then []
  else [.deleteInstances ((resInstancesToDelete env).map InstanceRes.name)]

/-- `resM1` plus `_CreateSnapshots` and its `_WaitForSnapshots` poll. -/
def resM2 (env : ResumeEnv) : List MoveEvent :=
  resM1 env ++
    (if resUnmovedSnaps env = [] then []
     else [.insertSnapshots ((resUnmovedSnaps env).map Prod.snd), .listSnapshots])

/-- `resM2` plus `_DeleteDisks`. -/
def resM3 (env : ResumeEnv) : List MoveEvent :=
  resM2 env ++
    (if resDisksToMv env = [] then [] else [.deleteDisks (resDisksToMv env)])

/-- `resM3` plus the snapshot listing that computes `disks_to_create`. -/
def resM4 (env : ResumeEnv) : List MoveEvent :=
  resM3 env ++ [.listSnapshots]

/-- `resM4` plus `_CreateDisksFromSnapshots`. -/
def resM5 (env : ResumeEnv) : List MoveEvent :=
  resM4 env ++
    (if resDisksToCreate env = [] then []
     else [.insertDisks ((resDisksToCreate env).map Prod.fst)])

/-- `resM5` plus `_CreateInstances` (`instances_to_mv` is non-empty when
this phase is reached). -/
def resM6 (env : ResumeEnv) : List MoveEvent :=
  resM5 env ++ [.insertInstances ((resInstancesToMv env).map InstanceRes.name)]

/-- `resM6` plus `_DeleteSnapshots` on `disks_to_create.values()`. -/
def resM7 (env : ResumeEnv) : List MoveEvent :=
  resM6 env ++
    (if resDisksToCreate env = [] || env.keep_snapshots then []
     else [.deleteSnapshots ((resDisksToCreate env).map Prod.snd)])

/-- The mutation phase of `ResumeMove.HandleMove`: delete the source
instances that still exist, create the missing snapshots, delete the
source disks, recreate missing disks from snapshots, recreate the
instances, delete the created snapshots, and (unless `--keep_log_file`)
remove the log.  Returns its own trace segment, to be appended after the
pre-check trace. -/
def resumeMutations (env : ResumeEnv) : List MoveEvent × Option MoveErr :=
  if resInstancesToDelete env ≠ [] && !env.deleteInstancesOk then
    (resM1 env, some .commandError)
  else if resUnmovedSnaps env ≠ [] && !env.createSnapshotsOk then
    (resM2 env, some .commandError)
  else if resUnmovedSnaps env ≠ [] && !env.snapshotsReady then
    (resM2 env, some .commandError)
  else if resDisksToMv env ≠ [] && !env.deleteDisksOk then
    (resM3 env, some .commandError)
  else if resDisksToCreate env ≠ [] && !env.createDisksOk then
    (resM5 env, some .commandError)
  else if !env.createInstancesOk then (resM6 env, some .commandError)
  else if resDisksToCreate env ≠ [] && !env.keep_snapshots
      && !env.deleteSnapshotsOk then
    (resM7 env, some .commandError)
  else
    (resM7 env ++ (if env.keep_log_file then [] else [.removeLog]), none)

/-- `ResumeMove.HandleMove`: the trace of calls performed and how the
run ended (`none` = success) — the pre-check phase followed, when every
check passed, by the mutation phase. -/
def resumeHandleMove (env : ResumeEnv) : List MoveEvent × Option MoveErr :=
  match resumePreChecks env with
  | (t, some e) => (t, some e)
  | (t, none) =>
    let m := resumeMutations env
    (t ++ m.1, m.2)

/-! ### Saga-order helpers and concrete run environments -/

/-- The REST mutations of a trace, in order. -/
def mutationTrace (tr : List MoveEvent) : List MoveEvent :=
  tr.filter MoveEvent.isMutation

/-- Position of a mutation in the saga `moveinstances` actually
performs: delete instances, snapshot disks, delete disks, recreate
disks, recreate instances, delete snapshots. -/
def sagaRank : MoveEvent → Nat
  | .deleteInstances _ => 0
  | .insertSnapshots _ => 1
  | .deleteDisks _ => 2
  | .insertDisks _ => 3
  | .insertInstances _ => 4
  | .deleteSnapshots _ => 5
  | _ => 6

/-- Is the event a snapshot-creation call? -/
def MoveEvent.isSnapshotInsert : MoveEvent → Bool
  | .insertSnapshots _ => true
  | _ => false

/-- Is the event a deletion of source resources (instances or disks)? -/
def MoveEvent.isSourceDelete : MoveEvent → Bool
  | .deleteInstances _ => true
  | .deleteDisks _ => true
  | _ => false

/-- A concrete successful `moveinstances` run: one instance `i1` with
one persistent disk `d1` moves from `zone-a` to `zone-b`. -/
def oneInstanceMoveEnv : MoveEnv where
  source_zone := "zone-a"
  destination_zone := "zone-b"
  hasRegexes := true
  destZoneExists := true
  instancesInSrcMatching := [⟨"i1", "zone-a", [⟨"PERSISTENT", "d1"⟩]⟩]
  instancesInDestMatching := []
  instancesToIgnore := []
  quotaOk := true
  confirmOk := true
  snapshotNameFor := fun _ => "snap-d1"
  deleteInstancesOk := true
  createSnapshotsOk := true
  snapshotsReady := true
  deleteDisksOk := true
  createDisksOk := true
  createInstancesOk := true
  keep_snapshots := false
  deleteSnapshotsOk := true

/-- A concrete `resumemove` run in which the logged instance `i1` is
already present in the destination zone (as a restarted resource with a
different `zone` field). -/
def allMovedResumeEnv : ResumeEnv where
  logExists := true
  loggedSrcZone := "zone-a"
  loggedDestZone := "zone-b"
  loggedInstances := [⟨"i1", "zone-a", []⟩]
  loggedSnapshotMappings := [("d1", "snap-d1")]
  instancesInDest := [⟨"i1", "zone-b", []⟩]
  instancesInSource := []
  disksInDest := ["d1"]
  disksInSrc := []
  currentSnapshots := []
  allSnapshotsLater := []
  quotaOk := true
  confirmOk := true
  deleteInstancesOk := true
  createSnapshotsOk := true
  snapshotsReady := true
  deleteDisksOk := true
  createDisksOk := true
  createInstancesOk := true
  keep_snapshots := false
  deleteSnapshotsOk := true
  keep_log_file := false

/-- Concrete pages for the pagination witness: the second page carries
no continuation token, the third is never fetched. -/
def threePages : List (Page Nat) :=
  [⟨[1, 2], some "tok", some "compute#instanceList"⟩,
   ⟨[3], none, some "compute#instanceList"⟩,
   ⟨[4], none, some "compute#instanceList"⟩]

/-- Concrete poll stream for the operation-wait witness: the first poll
already reports `DONE`. -/
def donePolls : Nat → Operation :=
  fun _ => ⟨"DONE", "operation-1"⟩

/-! ## Lemmas and claim theorems -/

lemma executeRequests_eq {ε ρ : Type} (ops : List (BatchOutcome ε ρ)) :
    executeRequests ops = ((ops.map opResults).flatten, (ops.map opExceptions).flatten) := by
  induction ops with
  | nil => rfl
  | cons op rest ih => simp [executeRequests, ih]

lemma fetchedPages_tokens {α : Type} (pages : List (Page α)) :
    ∀ p ∈ (fetchedPages pages).dropLast, p.nextPageToken ≠ none := by
  induction pages with
  | nil => simp [fetchedPages]
  | cons p rest ih =>
    cases hp : p.nextPageToken with
    | none => simp [fetchedPages, hp]
    | some t =>
      simp only [fetchedPages, hp]
      cases hf : fetchedPages rest with
      | nil => simp
      | cons q l =>
        intro x hx
        rw [List.dropLast_cons₂] at hx
        rcases List.mem_cons.1 hx with rfl | hx'
        · simp [hp]
        · exact ih x (by rw [hf]; exact hx')

lemma fetchedPages_stop {α : Type} (pages : List (Page α))
    (h : ∃ p ∈ pages, p.nextPageToken = none) :
    fetchedPages pages =
      pages.take (pages.findIdx (fun p => p.nextPageToken.isNone) + 1) := by
  induction pages with
  | nil => simp at h
  | cons p rest ih =>
    cases hp : p.nextPageToken with
    | none =>
      simp [fetchedPages, hp, List.findIdx_cons]
    | some t =>
      have hrest : ∃ q ∈ rest, q.nextPageToken = none := by
        rcases h with ⟨q, hq, hqn⟩
        rcases List.mem_cons.1 hq with rfl | hq
        · rw [hp] at hqn; cases hqn
        · exact ⟨q, hq, hqn⟩
      simp [fetchedPages, hp, List.findIdx_cons, ih hrest]

/-- C4: `utils.All` concatenates the `items` of the fetched pages in
fetch order; with `max_results = None` all fetched items are returned,
with `max_results = m` only the first `m` (so never more than `m`); and
the loop follows `nextPageToken` page by page, stopping with the first
page that carries none. -/
theorem utils_All_pagination {α : Type} (pages : List (Page α)) (m : Nat) :
    (All pages none).items = ((fetchedPages pages).map Page.items).flatten ∧
    (All pages (some m)).items =
      (((fetchedPages pages).map Page.items).flatten).take m ∧
    (All pages (some m)).items.length ≤ m ∧
    (∀ p ∈ (fetchedPages pages).dropLast, p.nextPageToken ≠ none) ∧
    ((∃ p ∈ pages, p.nextPageToken = none) →
      fetchedPages pages =
        pages.take (pages.findIdx (fun p => p.nextPageToken.isNone) + 1)) := by
  refine ⟨rfl, rfl, ?_, fetchedPages_tokens pages, fetchedPages_stop pages⟩
  simp [All, List.length_take]

/-- C4 witness: on a concrete three-page stream whose second page has no
continuation token, the loop fetches exactly the first two pages. -/
theorem utils_All_pagination_witness :
    fetchedPages threePages =
      threePages.take (threePages.findIdx (fun p => p.nextPageToken.isNone) + 1) :=
  (utils_All_pagination threePages 0).2.2.2.2
    ⟨⟨[3], none, some "compute#instanceList"⟩, by simp [threePages], rfl⟩

/-- C3: the write-then-read round trip of the replay log.  The dict
`_WriteLog` serialises holds exactly the keys `version`, `dest_zone`,
`src_zone`, `instances` and `snapshot_mappings`, and `_ParseLog`
followed by `_GetKey` returns, without a `CommandError`, exactly the
values that were written for each of the four keys `resumemove` reads. -/
theorem writeLog_roundtrip (ver src_zone dest_zone : String)
    (instances_to_mv : List InstanceRes)
    (snapshot_mappings : List (String × String)) :
    dkeys (writeLogContents ver src_zone dest_zone instances_to_mv snapshot_mappings) =
      ["version", "dest_zone", "src_zone", "instances", "snapshot_mappings"] ∧
    getKey (parseLog (writeLogContents ver src_zone dest_zone instances_to_mv
        snapshot_mappings)) "src_zone" = some (JVal.jstr src_zone) ∧
    getKey (parseLog (writeLogContents ver src_zone dest_zone instances_to_mv
        snapshot_mappings)) "dest_zone" = some (JVal.jstr dest_zone) ∧
    getKey (parseLog (writeLogContents ver src_zone dest_zone instances_to_mv
        snapshot_mappings)) "instances" = some (JVal.jinsts instances_to_mv) ∧
    getKey (parseLog (writeLogContents ver src_zone dest_zone instances_to_mv
        snapshot_mappings)) "snapshot_mappings" = some (JVal.jmap snapshot_mappings) := by
  refine ⟨rfl, ?_, ?_, ?_, ?_⟩ <;> simp [writeLogContents, parseLog, getKey, dget?]

/-- C6: `ExecuteRequests` returns, after all requests have run, the pair
`(results, exceptions)` in which every raised exception appears in the
exceptions list and every successful result in the results list, in
submission order; the contributions of a batch are the concatenation of
the contributions of its parts, so an earlier failure never suppresses a
later request (no fail-fast). -/
theorem executeRequests_collects {ε ρ : Type}
    (ops ops' : List (BatchOutcome ε ρ)) :
    executeRequests ops =
      ((ops.map opResults).flatten, (ops.map opExceptions).flatten) ∧
    executeRequests (ops ++ ops') =
      ((executeRequests ops).1 ++ (executeRequests ops').1,
       (executeRequests ops).2 ++ (executeRequests ops').2) ∧
    (∀ e, BatchOutcome.raised e ∈ ops → e ∈ (executeRequests ops).2) ∧
    (∀ r, BatchOutcome.single r ∈ ops → r ∈ (executeRequests ops).1) ∧
    (∀ rs r, BatchOutcome.multi rs ∈ ops → r ∈ rs → r ∈ (executeRequests ops).1) := by
  refine ⟨executeRequests_eq ops, ?_, ?_, ?_, ?_⟩
  · simp [executeRequests_eq]
  · intro e he
    simp only [executeRequests_eq, List.mem_flatten, List.mem_map]
    exact ⟨[e], ⟨BatchOutcome.raised e, he, rfl⟩, by simp⟩
  · intro r hr
    simp only [executeRequests_eq, List.mem_flatten, List.mem_map]
    exact ⟨[r], ⟨BatchOutcome.single r, hr, rfl⟩, by simp⟩
  · intro rs r hrs hr
    simp only [executeRequests_eq, List.mem_flatten, List.mem_map]
    exact ⟨rs, ⟨BatchOutcome.multi rs, hrs, rfl⟩, hr⟩

/-- C6 witness: a concrete batch in which the first request raises and
the later requests still contribute their results. -/
theorem executeRequests_collects_witness :
    "boom" ∈ (executeRequests [BatchOutcome.raised "boom",
      BatchOutcome.single "op-a", BatchOutcome.multi ["op-b", "op-c"]]).2 :=
  (executeRequests_collects
    ([BatchOutcome.raised "boom", BatchOutcome.single "op-a",
      BatchOutcome.multi ["op-b", "op-c"]] : List (BatchOutcome String String))
    []).2.2.1 "boom" (by simp)

/-- C7: the exit codes of `GoogleComputeCommand.Run`.  An `HttpError` is
caught and becomes exit code 1 (as does any other unexpected exception,
while `UsageError` is re-raised to the framework); a completed command
returns `bool(exceptions or error_in_result)`, so among all returning
runs the exit code is 0 exactly when the collected exception list is
empty and the result carries no operation with a non-empty error list in
synchronous mode; `_ErrorInResult` reports an error exactly in that
synchronous-mode situation. -/
theorem run_exit_codes (sync : Bool) :
    run sync RunExec.httpError = Except.ok 1 ∧
    run sync RunExec.otherError = Except.ok 1 ∧
    (∀ result exceptions, run sync (RunExec.completed result exceptions) =
        Except.ok (if exceptions = [] ∧ errorInResult sync result = false then 0 else 1)) ∧
    (∀ x n, run sync x = Except.ok n →
        (n = 0 ↔ ∃ result, x = RunExec.completed result [] ∧
          errorInResult sync result = false)) ∧
    (∀ result, errorInResult sync result = true ↔
        (sync = true ∧ ∃ op ∈ resultOperations result, op.errorEntries ≠ [])) := by
  refine ⟨rfl, rfl, ?_, ?_, ?_⟩
  · intro result exceptions
    simp only [run]
    split_ifs with h1 h2 <;> simp_all
  · intro x n h
    cases x with
    | httpError =>
      simp only [run, Except.ok.injEq] at h
      subst h
      simp
    | usageError => simp [run] at h
    | otherError =>
      simp only [run, Except.ok.injEq] at h
      subst h
      simp
    | completed result exceptions =>
      simp only [run, Except.ok.injEq] at h
      subst h
      constructor
      · intro h0
        by_cases he : exceptions = []
        · subst he
          refine ⟨result, rfl, ?_⟩
          by_contra hres
          simp [hres] at h0
        · simp [he] at h0
      · rintro ⟨result', heq, hres⟩
        injection heq with h1 h2
        subst h1
        subst h2
        simp [hres]
  · intro result
    simp only [errorInResult, List.any_eq_true, Bool.and_eq_true,
      Bool.not_eq_true', List.isEmpty_eq_false]
    constructor
    · rintro ⟨op, hop, hsync, hne⟩
      exact ⟨hsync, op, hop, hne⟩
    · rintro ⟨hsync, op, hop, hne⟩
      exact ⟨op, hop, hsync, hne⟩

/-- C7 witness: a completed run with no exceptions and a non-operation
result exits with code 0. -/
theorem run_exit_codes_witness :
    0 = 0 ↔ ∃ result, RunExec.completed RunResult.other ([] : List String) =
      RunExec.completed result [] ∧ errorInResult true result = false :=
  (run_exit_codes true).2.2.2.1 (RunExec.completed RunResult.other []) 0 rfl

lemma waitLoop_spec (s m : Nat) (polls : Nat → Operation) :
    ∀ fuel k elapsed op r sleeps polled,
      waitForOperationLoop s m polls fuel k elapsed op = some (r, sleeps, polled) →
      (∀ d ∈ sleeps, d = s) ∧
      sleeps.length = polled.length ∧
      (∀ x ∈ (op :: polled).dropLast, x.status ≠ "DONE") ∧
      r = (op :: polled).getLast (List.cons_ne_nil _ _) ∧
      (r.status = "DONE" ∨ m ≤ elapsed + sleeps.sum) ∧
      (∀ i, i < polled.length → elapsed + i * s < m) := by
  intro fuel
  induction fuel with
  | zero =>
    intro k elapsed op r sleeps polled h
    simp [waitForOperationLoop] at h
  | succ fuel ih =>
    intro k elapsed op r sleeps polled h
    rw [waitForOperationLoop] at h
    by_cases hd : op.status = "DONE"
    · rw [if_pos hd] at h
      simp only [Option.some.injEq, Prod.mk.injEq] at h
      obtain ⟨rfl, rfl, rfl⟩ := h
      refine ⟨by simp, rfl, by simp, by simp, Or.inl hd, by simp⟩
    · rw [if_neg hd] at h
      by_cases ht : m ≤ elapsed
      · rw [if_pos ht] at h
        simp only [Option.some.injEq, Prod.mk.injEq] at h
        obtain ⟨rfl, rfl, rfl⟩ := h
        refine ⟨by simp, rfl, by simp, by simp, Or.inr (by simpa using ht), by simp⟩
      · rw [if_neg ht] at h
        cases hrec : waitForOperationLoop s m polls fuel (k + 1)
            (elapsed + s) (polls k) with
        | none => rw [hrec] at h; cases h
        | some res =>
          obtain ⟨r', sleeps', polled'⟩ := res
          rw [hrec] at h
          simp only [Option.some.injEq, Prod.mk.injEq] at h
          obtain ⟨rfl, rfl, rfl⟩ := h
          obtain ⟨ihs, ihlen, ihdrop, ihlast, ihexit, ihtime⟩ :=
            ih (k + 1) (elapsed + s) (polls k) r' sleeps' polled' hrec
          refine ⟨?_, by simpa using ihlen, ?_, ?_, ?_, ?_⟩
          · intro d hd'
            rcases List.mem_cons.1 hd' with rfl | hd'
            · rfl
            · exact ihs d hd'
          · intro x hx
            rw [List.dropLast_cons₂] at hx
            rcases List.mem_cons.1 hx with rfl | hx'
            · exact hd
            · exact ihdrop x hx'
          · rw [ihlast, List.getLast_cons (List.cons_ne_nil _ _)]
          · rcases ihexit with hdone | htime
            · exact Or.inl hdone
            · refine Or.inr ?_
              simp only [List.sum_cons]
              omega
          · intro i hi
            cases i with
            | zero =>
              simp only [Nat.zero_mul, Nat.add_zero]
              omega
            | succ j =>
              have := ihtime j (by simpa using hi)
              have hms : (j + 1) * s = j * s + s := Nat.succ_mul j s
              omega

/-- C5: the `while result['status'] != 'DONE'` loop of
`WaitForOperation`.  For every run of the loop that completes within its
iteration bound: every sleep between consecutive polls is exactly
`sleep_between_polls`; polling stops as soon as the status becomes
`DONE` (no operation before the last one is `DONE`) or the elapsed time
reaches `max_wait_time` (every poll is issued strictly before the
timeout); and the returned value is the last operation object seen —
in particular the last polled one in the timeout case. -/
theorem waitForOperation_polling (s m fuel : Nat)
    (polls : Nat → Operation) (op r : Operation) (sleeps : List Nat)
    (polled : List Operation)
    (h : waitForOperationLoop s m polls fuel 0 0 op = some (r, sleeps, polled)) :
    (∀ d ∈ sleeps, d = s) ∧
    sleeps.length = polled.length ∧
    (∀ x ∈ (op :: polled).dropLast, x.status ≠ "DONE") ∧
    r = (op :: polled).getLast (List.cons_ne_nil _ _) ∧
    (r.status = "DONE" ∨ m ≤ sleeps.sum) ∧
    (∀ i, i < polled.length → i * s < m) := by
  obtain ⟨hs, hlen, hdrop, hlast, hexit, htime⟩ :=
    waitLoop_spec s m polls fuel 0 0 op r sleeps polled h
  refine ⟨hs, hlen, hdrop, hlast, ?_, ?_⟩
  · simpa using hexit
  · intro i hi
    simpa using htime i hi

/-- C5 witness: with a two-second sleep, a ten-second timeout and a
first poll that reports `DONE`, the loop sleeps once and stops. -/
theorem waitForOperation_polling_witness :
    (∀ d ∈ [2], d = 2) ∧
    ([2] : List Nat).length = [(⟨"DONE", "operation-1"⟩ : Operation)].length ∧
    (∀ x ∈ ((⟨"PENDING", "operation-1"⟩ : Operation) ::
        [(⟨"DONE", "operation-1"⟩ : Operation)]).dropLast, x.status ≠ "DONE") ∧
    (⟨"DONE", "operation-1"⟩ : Operation) =
      ((⟨"PENDING", "operation-1"⟩ : Operation) ::
        [(⟨"DONE", "operation-1"⟩ : Operation)]).getLast (List.cons_ne_nil _ _) ∧
    ((⟨"DONE", "operation-1"⟩ : Operation).status = "DONE" ∨ 10 ≤ ([2] : List Nat).sum) ∧
    (∀ i, i < [(⟨"DONE", "operation-1"⟩ : Operation)].length → i * 2 < 10) :=
  waitForOperation_polling 2 10 5 donePolls ⟨"PENDING", "operation-1"⟩
    ⟨"DONE", "operation-1"⟩ [2] [⟨"DONE", "operation-1"⟩] (by decide)

lemma pySorted_le_trans (key : α → String) (reverse : Bool) :
    ∀ a b c : α,
      (if reverse then decide (key b ≤ key a) else decide (key a ≤ key b)) = true →
      (if reverse then decide (key c ≤ key b) else decide (key b ≤ key c)) = true →
      (if reverse then decide (key c ≤ key a) else decide (key a ≤ key c)) = true := by
  cases reverse <;> simp <;> intro a b c h1 h2
  · exact le_trans h1 h2
  · exact le_trans h2 h1

lemma pySorted_le_total (key : α → String) (reverse : Bool) :
    ∀ a b : α,
      ((if reverse then decide (key b ≤ key a) else decide (key a ≤ key b)) ||
       (if reverse then decide (key a ≤ key b) else decide (key b ≤ key a))) = true := by
  cases reverse <;> simp <;> intro a b <;> exact le_total _ _

lemma pySorted_perm (key : α → String) (reverse : Bool) (rows : List α) :
    List.Perm (pySorted key reverse rows) rows :=
  List.mergeSort_perm rows _

lemma pySorted_pairwise (key : α → String) (reverse : Bool) (rows : List α) :
    (pySorted key reverse rows).Pairwise
      (fun a b => if reverse then key b ≤ key a else key a ≤ key b) := by
  have h := @List.sorted_mergeSort _
    (fun a b => if reverse then decide (key b ≤ key a) else decide (key a ≤ key b))
    (pySorted_le_trans key reverse) (pySorted_le_total key reverse) rows
  refine h.imp ?_
  intro a b hab
  cases reverse <;> simpa using hab

lemma pySorted_stable (key : α → String) (reverse : Bool) (rows : List α)
    (v : String) :
    (pySorted key reverse rows).filter (fun row => decide (key row = v)) =
      rows.filter (fun row => decide (key row = v)) := by
  have hall : ∀ a ∈ rows.filter (fun row => decide (key row = v)), key a = v := by
    intro a ha
    simpa using (List.mem_filter.1 ha).2
  have hpair : (rows.filter (fun row => decide (key row = v))).Pairwise
      (fun a b => (if reverse then decide (key b ≤ key a)
                   else decide (key a ≤ key b)) = true) := by
    refine List.pairwise_of_forall_mem_list ?_
    intro a ha b hb
    rw [hall a ha, hall b hb]
    cases reverse <;> simp
  have h1 : List.Sublist (rows.filter (fun row => decide (key row = v))) (pySorted key reverse rows) :=
    List.sublist_mergeSort (pySorted_le_trans key reverse)
      (pySorted_le_total key reverse) hpair (List.filter_sublist rows)
  have h2 : List.Sublist (rows.filter (fun row => decide (key row = v)))
      ((pySorted key reverse rows).filter (fun row => decide (key row = v))) := by
    have h3 := h1.filter (fun row => decide (key row = v))
    rwa [List.filter_eq_self.2 (fun a ha => by simp [hall a ha])] at h3
  have hlen : ((pySorted key reverse rows).filter
        (fun row => decide (key row = v))).length =
      (rows.filter (fun row => decide (key row = v))).length :=
    ((pySorted_perm key reverse rows).filter _).length_eq
  exact (h2.eq_of_length hlen.symm).symm

/-- C8: `_PrintList` row ordering.  When a sort column is selected (via
`--sort_by` or the command's `default_sort_field`) and names an actual
column, the rows are stably sorted by that column's value — descending
exactly when the name carries a `'-'` — and, when
`--fetch_all_pages` is false, the rows are truncated to the first
`max_results` only after the sort. -/
theorem printList_sort_rows (cfg : ListCmdConfig) (rows : List (List String))
    (sc scn : String) (reverse : Bool)
    (hsc : effectiveSortCol cfg = some sc)
    (hrev : reverse = startsWithDash sc)
    (hname : scn = if startsWithDash sc then dropFirst sc else sc)
    (hmem : scn ∈ cfg.summary_fields) :
    printListRows cfg rows =
      (if cfg.fetch_all_pages then
        pySorted (fun row => row.getD (cfg.summary_fields.indexOf scn) "") reverse rows
      else
        (pySorted (fun row => row.getD (cfg.summary_fields.indexOf scn) "")
          reverse rows).take cfg.max_results) ∧
    List.Perm (pySorted (fun row => row.getD (cfg.summary_fields.indexOf scn) "")
      reverse rows) rows ∧
    (pySorted (fun row => row.getD (cfg.summary_fields.indexOf scn) "") reverse
        rows).Pairwise
      (fun a b =>
        if reverse then b.getD (cfg.summary_fields.indexOf scn) "" ≤
          a.getD (cfg.summary_fields.indexOf scn) ""
        else a.getD (cfg.summary_fields.indexOf scn) "" ≤
          b.getD (cfg.summary_fields.indexOf scn) "") ∧
    (∀ v, (pySorted (fun row => row.getD (cfg.summary_fields.indexOf scn) "")
        reverse rows).filter
          (fun row => decide (row.getD (cfg.summary_fields.indexOf scn) "" = v)) =
      rows.filter
        (fun row => decide (row.getD (cfg.summary_fields.indexOf scn) "" = v))) := by
  refine ⟨?_, pySorted_perm _ reverse rows, pySorted_pairwise _ reverse rows,
    fun v => pySorted_stable _ reverse rows v⟩
  subst hname hrev
  simp only [printListRows, hsc, hmem, if_pos]
  cases hf : cfg.fetch_all_pages <;> simp

/-- C8 witness: sorting two rows by the descending `name` column of a
concrete list command. -/
theorem printList_sort_rows_witness :
    List.Perm
      (pySorted
        (fun row => row.getD
          ((⟨["name", "zone"], none, some "-name", 100, false⟩ :
            ListCmdConfig).summary_fields.indexOf "name") "")
        true [["b", "z1"], ["a", "z2"]])
      [["b", "z1"], ["a", "z2"]] :=
  (printList_sort_rows ⟨["name", "zone"], none, some "-name", 100, false⟩
    [["b", "z1"], ["a", "z2"]] "-name" "name" true rfl (by decide) (by decide)
    (by decide)).2.1

lemma dget?_dinsert_self {β : Type} (k : String) (v : β) (d : List (String × β)) :
    dget? k (dinsert k v d) = some v := by
  induction d with
  | nil => simp [dinsert, dget?]
  | cons p rest ih =>
    obtain ⟨k', v'⟩ := p
    by_cases h : k' = k
    · subst h; simp [dinsert, dget?]
    · simp [dinsert, dget?, h, ih]

lemma dget?_dinsert_ne {β : Type} (k k' : String) (v : β) (d : List (String × β))
    (h : k ≠ k') : dget? k (dinsert k' v d) = dget? k d := by
  induction d with
  | nil => simp [dinsert, dget?, Ne.symm h]
  | cons p rest ih =>
    obtain ⟨k'', v''⟩ := p
    by_cases h2 : k'' = k'
    · subst h2; simp [dinsert, dget?, Ne.symm h]
    · by_cases h3 : k'' = k
      · subst h3; simp [dinsert, dget?, h2]
      · simp [dinsert, dget?, h2, h3, ih]

lemma dget?_dinsert_isSome {β : Type} (k k' : String) (v : β) (d : List (String × β))
    (h : (dget? k d).isSome) : (dget? k (dinsert k' v d)).isSome := by
  by_cases hk : k = k'
  · subst hk; simp [dget?_dinsert_self]
  · rwa [dget?_dinsert_ne k k' v d hk]

lemma projFold_not_mem (req : List (String × Int)) (m : String) :
    ∀ (pq : List Quota) (a0 : List (String × Int)), m ∉ pq.map Quota.metric →
      dget? m (pq.foldl (projectQuotaStep req) a0) = dget? m a0 := by
  intro pq
  induction pq with
  | nil => intro a0 _; rfl
  | cons q rest ih =>
    intro a0 hm
    have hm' : m ∉ rest.map Quota.metric := fun h => hm (by simp [h])
    have hq : q.metric ≠ m := fun h => hm (by simp [h])
    rw [List.foldl_cons, ih _ hm']
    by_cases h1 : q.metric ∈ req.map Prod.fst
    · simp only [projectQuotaStep, if_pos h1]
      exact dget?_dinsert_ne m q.metric _ a0 (Ne.symm hq)
    · simp only [projectQuotaStep, if_neg h1]

lemma projFold_mem (req : List (String × Int)) (q : Quota)
    (hpert : q.metric ∈ req.map Prod.fst) :
    ∀ (pq : List Quota) (a0 : List (String × Int)),
      (pq.map Quota.metric).Nodup → q ∈ pq →
      dget? q.metric (pq.foldl (projectQuotaStep req) a0) =
        some (if q.metric = "SNAPSHOTS" then q.limit - q.usage
              else q.limit - q.usage + ((dget? q.metric req).getD 0)) := by
  intro pq
  induction pq with
  | nil => intro a0 _ hq; cases hq
  | cons q0 rest ih =>
    intro a0 hnd hq
    rw [List.map_cons, List.nodup_cons] at hnd
    obtain ⟨hnotin, hnd'⟩ := hnd
    rcases List.mem_cons.1 hq with rfl | hq'
    · rw [List.foldl_cons, projFold_not_mem req _ rest _ hnotin]
      simp only [projectQuotaStep, if_pos hpert]
      exact dget?_dinsert_self _ _ _
    · rw [List.foldl_cons]
      exact ih _ hnd' hq'

lemma projFold_isSome_mono (req : List (String × Int)) (m : String) :
    ∀ (pq : List Quota) (a0 : List (String × Int)), (dget? m a0).isSome →
      (dget? m (pq.foldl (projectQuotaStep req) a0)).isSome := by
  intro pq
  induction pq with
  | nil => intro a0 h; exact h
  | cons q rest ih =>
    intro a0 h
    rw [List.foldl_cons]
    refine ih _ ?_
    by_cases h1 : q.metric ∈ req.map Prod.fst
    · simp only [projectQuotaStep, if_pos h1]
      exact dget?_dinsert_isSome m q.metric _ a0 h
    · simpa only [projectQuotaStep, if_neg h1] using h

lemma projFold_isSome (req : List (String × Int)) (m : String)
    (hpert : m ∈ req.map Prod.fst) :
    ∀ (pq : List Quota) (a0 : List (String × Int)), m ∈ pq.map Quota.metric →
      (dget? m (pq.foldl (projectQuotaStep req) a0)).isSome := by
  intro pq
  induction pq with
  | nil => intro a0 hm; simp at hm
  | cons q rest ih =>
    intro a0 hm
    rw [List.foldl_cons]
    by_cases hqm : m ∈ rest.map Quota.metric
    · exact ih _ hqm
    · have hq : q.metric = m := by
        rw [List.map_cons] at hm
        rcases List.mem_cons.1 hm with h | h
        · exact h.symm
        · exact absurd h hqm
      refine projFold_isSome_mono req m rest _ ?_
      simp only [projectQuotaStep, hq, if_pos hpert]
      simp [dget?_dinsert_self]

lemma zoneFold_some (req : List (String × Int)) :
    ∀ (zq : List Quota) (a0 : List (String × Int)),
      (∀ q ∈ zq, q.metric ∈ req.map Prod.fst → (dget? q.metric a0).isSome) →
      (zq.foldlM (zoneQuotaStep req) a0).isSome := by
  intro zq
  induction zq with
  | nil => intro a0 _; simp [List.foldlM]
  | cons q rest ih =>
    intro a0 h
    rw [List.foldlM_cons]
    by_cases h1 : q.metric ∈ req.map Prod.fst
    · obtain ⟨cur, hcur⟩ := Option.isSome_iff_exists.1 (h q (by simp) h1)
      simp only [zoneQuotaStep, if_pos h1, hcur, Option.bind_eq_bind,
        Option.some_bind]
      refine ih _ ?_
      intro q' hq' hpert'
      exact dget?_dinsert_isSome _ _ _ _ (h q' (by simp [hq']) hpert')
    · simp only [zoneQuotaStep, if_neg h1, Option.bind_eq_bind, Option.some_bind]
      exact ih _ (fun q' hq' hpert' => h q' (by simp [hq']) hpert')

lemma zoneFold_not_mem (req : List (String × Int)) (m : String) :
    ∀ (zq : List Quota) (a0 res : List (String × Int)),
      m ∉ zq.map Quota.metric →
      zq.foldlM (zoneQuotaStep req) a0 = some res →
      dget? m res = dget? m a0 := by
  intro zq
  induction zq with
  | nil =>
    intro a0 res _ h
    obtain rfl : a0 = res := by simpa [List.foldlM] using h
    rfl
  | cons q rest ih =>
    intro a0 res hm h
    have hm' : m ∉ rest.map Quota.metric := fun hh => hm (by simp [hh])
    have hq : q.metric ≠ m := fun hh => hm (by simp [hh])
    rw [List.foldlM_cons] at h
    by_cases h1 : q.metric ∈ req.map Prod.fst
    · cases hcur : dget? q.metric a0 with
      | none => simp [zoneQuotaStep, if_pos h1, hcur] at h
      | some cur =>
        simp only [zoneQuotaStep, if_pos h1, hcur, Option.bind_eq_bind,
          Option.some_bind] at h
        rw [ih _ _ hm' h]
        exact dget?_dinsert_ne m q.metric _ a0 (Ne.symm hq)
    · simp only [zoneQuotaStep, if_neg h1, Option.bind_eq_bind,
        Option.some_bind] at h
      exact ih _ _ hm' h

lemma zoneFold_mem (req : List (String × Int)) (q : Quota)
    (hpert : q.metric ∈ req.map Prod.fst) :
    ∀ (zq : List Quota) (a0 res : List (String × Int)),
      (zq.map Quota.metric).Nodup → q ∈ zq →
      zq.foldlM (zoneQuotaStep req) a0 = some res →
      dget? q.metric res =
        (dget? q.metric a0).map (fun cur => min cur (q.limit - q.usage)) := by
  intro zq
  induction zq with
  | nil => intro a0 res _ hq; cases hq
  | cons q0 rest ih =>
    intro a0 res hnd hq h
    rw [List.map_cons, List.nodup_cons] at hnd
    obtain ⟨hnotin, hnd'⟩ := hnd
    rw [List.foldlM_cons] at h
    rcases List.mem_cons.1 hq with rfl | hq'
    · cases hcur : dget? q.metric a0 with
      | none => simp [zoneQuotaStep, if_pos hpert, hcur] at h
      | some cur =>
        simp only [zoneQuotaStep, if_pos hpert, hcur, Option.bind_eq_bind,
          Option.some_bind] at h
        rw [zoneFold_not_mem req _ rest _ res hnotin h]
        simp [dget?_dinsert_self]
    · have hne : q0.metric ≠ q.metric := by
        intro he
        exact hnotin (he ▸ (List.mem_map.2 ⟨q, hq', rfl⟩))
      by_cases h1 : q0.metric ∈ req.map Prod.fst
      · cases hcur : dget? q0.metric a0 with
        | none => simp [zoneQuotaStep, if_pos h1, hcur] at h
        | some cur =>
          simp only [zoneQuotaStep, if_pos h1, hcur, Option.bind_eq_bind,
            Option.some_bind] at h
          rw [ih _ _ hnd' hq' h,
            dget?_dinsert_ne q.metric q0.metric _ a0 (Ne.symm hne)]
      · simp only [zoneQuotaStep, if_neg h1, Option.bind_eq_bind,
          Option.some_bind] at h
        exact ih _ _ hnd' hq' h

lemma dget?_mem {β : Type} (k : String) (v : β) :
    ∀ d : List (String × β), dget? k d = some v → (k, v) ∈ d := by
  intro d
  induction d with
  | nil => intro h; cases h
  | cons p rest ih =>
    obtain ⟨k', v'⟩ := p
    intro h
    by_cases hk : k' = k
    · subst hk
      simp only [dget?, if_true] at h
      obtain rfl : v' = v := by injection h
      exact List.mem_cons_self _ _
    · simp only [dget?, if_neg hk] at h
      exact List.mem_cons_of_mem _ (ih h)

/-- C2: for every project quota list, zone quota list and requirements
map (with each metric listed once per quota list, and every pertinent
zone metric also present in the project quotas so that the lookup
succeeds), `_ExtractAvailableQuota` gives, for every metric present in
both quota lists, `min(zone limit - zone usage, project limit - project
usage + required)` — the `+ required` dropped for `'SNAPSHOTS'` — and
`_CheckQuotas` raises `CommandError` exactly when some required amount
exceeds the available amount. -/
theorem quota_arithmetic (pq zq : List Quota) (req : List (String × Int))
    (hnp : (pq.map Quota.metric).Nodup)
    (hnz : (zq.map Quota.metric).Nodup)
    (hpre : ∀ q ∈ zq, q.metric ∈ req.map Prod.fst → q.metric ∈ pq.map Quota.metric) :
    ∃ available, extractAvailableQuota pq zq req = some available ∧
      (∀ qp ∈ pq, ∀ qz ∈ zq, ∀ r : Int, qp.metric = qz.metric →
        dget? qp.metric req = some r →
        dget? qp.metric available =
          some (min (qz.limit - qz.usage)
            (qp.limit - qp.usage + (if qp.metric = "SNAPSHOTS" then 0 else r)))) ∧
      checkQuotas pq zq req =
        some (req.any (fun p => (dget? p.1 available).getD 0 - p.2 < 0)) ∧
      ((req.any (fun p => (dget? p.1 available).getD 0 - p.2 < 0)) = true ↔
        ∃ p ∈ req, (dget? p.1 available).getD 0 < p.2) := by
  have hsome : (extractAvailableQuota pq zq req).isSome := by
    unfold extractAvailableQuota
    refine zoneFold_some req zq _ ?_
    intro q hq hpert
    exact projFold_isSome req q.metric hpert pq [] (hpre q hq hpert)
  obtain ⟨available, havail⟩ := Option.isSome_iff_exists.1 hsome
  have hfold : zq.foldlM (zoneQuotaStep req)
      (pq.foldl (projectQuotaStep req) []) = some available := by
    simpa only [extractAvailableQuota] using havail
  refine ⟨available, havail, ?_, ?_, ?_⟩
  · intro qp hqp qz hqz r hmeq hreq
    have hpert : qp.metric ∈ req.map Prod.fst :=
      List.mem_map.2 ⟨(qp.metric, r), dget?_mem _ _ req hreq, rfl⟩
    have hz := zoneFold_mem req qz (hmeq ▸ hpert) zq _ available hnz hqz hfold
    rw [← hmeq] at hz
    have hp := projFold_mem req qp hpert pq [] hnp hqp
    rw [hz, hp, Option.map_some']
    rw [hreq] at hp ⊢
    by_cases hs : qp.metric = "SNAPSHOTS"
    · simp only [hs, if_pos rfl, Option.getD_some]
      rw [min_comm]
      norm_num
    · simp only [if_neg hs, Option.getD_some]
      rw [min_comm]
  · simp [checkQuotas, havail]
  · rw [List.any_eq_true]
    constructor
    · rintro ⟨p, hp, hlt⟩
      exact ⟨p, hp, by simpa [sub_neg] using hlt⟩
    · rintro ⟨p, hp, hlt⟩
      exact ⟨p, hp, by simpa [sub_neg] using hlt⟩

/-- C2 witness: one project quota, one zone quota, one requirement. -/
theorem quota_arithmetic_witness :
    ∃ available,
      extractAvailableQuota [⟨"CPUS", 5, 0⟩] [⟨"CPUS", 8, 2⟩] [("CPUS", 1)] =
        some available ∧
      (∀ qp ∈ [(⟨"CPUS", 5, 0⟩ : Quota)], ∀ qz ∈ [(⟨"CPUS", 8, 2⟩ : Quota)],
        ∀ r : Int, qp.metric = qz.metric →
        dget? qp.metric [("CPUS", (1 : Int))] = some r →
        dget? qp.metric available =
          some (min (qz.limit - qz.usage)
            (qp.limit - qp.usage + (if qp.metric = "SNAPSHOTS" then 0 else r)))) ∧
      checkQuotas [⟨"CPUS", 5, 0⟩] [⟨"CPUS", 8, 2⟩] [("CPUS", 1)] =
        some ([("CPUS", (1 : Int))].any
          (fun p => (dget? p.1 available).getD 0 - p.2 < 0)) ∧
      (([("CPUS", (1 : Int))].any
          (fun p => (dget? p.1 available).getD 0 - p.2 < 0)) = true ↔
        ∃ p ∈ [("CPUS", (1 : Int))], (dget? p.1 available).getD 0 < p.2) :=
  quota_arithmetic [⟨"CPUS", 5, 0⟩] [⟨"CPUS", 8, 2⟩] [("CPUS", 1)]
    (by decide) (by decide) (by decide)

/-- C10: `_ExtractAvailableQuota` completes without a failed dictionary
lookup whenever every pertinent metric of the zone quota list also
appears in the project quota list, and without that precondition the
`available[metric]` lookup in the zone loop fails on a concrete input
(the function is not total). -/
theorem extractAvailableQuota_keyError :
    (∀ (pq zq : List Quota) (req : List (String × Int)),
      (∀ q ∈ zq, q.metric ∈ req.map Prod.fst → q.metric ∈ pq.map Quota.metric) →
      (extractAvailableQuota pq zq req).isSome) ∧
    extractAvailableQuota [] [⟨"CPUS", 5, 0⟩] [("CPUS", 1)] = none := by
  constructor
  · intro pq zq req hpre
    unfold extractAvailableQuota
    refine zoneFold_some req zq _ ?_
    intro q hq hpert
    exact projFold_isSome req q.metric hpert pq [] (hpre q hq hpert)
  · rfl

/-- C10 witness: the precondition holds on a concrete input and the
computation indeed succeeds there. -/
theorem extractAvailableQuota_keyError_witness :
    (extractAvailableQuota [⟨"DISKS", 9, 1⟩] [⟨"DISKS", 4, 0⟩]
      [("DISKS", 2)]).isSome :=
  extractAvailableQuota_keyError.1 [⟨"DISKS", 9, 1⟩] [⟨"DISKS", 4, 0⟩]
    [("DISKS", 2)] (by decide)

lemma movePreChecks_cases (env : MoveEnv) (t : List MoveEvent)
    (r : Option MoveErr) (h : movePreChecks env = (t, r)) :
    (r = none → t = moveT2 env) ∧
    (t = [] ∨ t = [MoveEvent.getZone env.destination_zone] ∨
     t = moveT0 env ∨ t = moveT1 env ∨ t = moveT2 env) := by
  simp only [movePreChecks] at h
  by_cases c1 : env.source_zone = ""
  · rw [if_pos c1] at h
    injection h with h1 h2
    exact ⟨fun hr => Option.noConfusion (h2.trans hr), Or.inl h1.symm⟩
  rw [if_neg c1] at h
  by_cases c2 : env.destination_zone = ""
  · rw [if_pos c2] at h
    injection h with h1 h2
    exact ⟨fun hr => Option.noConfusion (h2.trans hr), Or.inl h1.symm⟩
  rw [if_neg c2] at h
  by_cases c3 : env.source_zone = env.destination_zone
  · rw [if_pos c3] at h
    injection h with h1 h2
    exact ⟨fun hr => Option.noConfusion (h2.trans hr), Or.inl h1.symm⟩
  rw [if_neg c3] at h
  by_cases c4 : (!env.hasRegexes) = true
  · rw [if_pos c4] at h
    injection h with h1 h2
    exact ⟨fun hr => Option.noConfusion (h2.trans hr), Or.inl h1.symm⟩
  rw [if_neg c4] at h
  by_cases c5 : (!env.destZoneExists) = true
  · rw [if_pos c5] at h
    injection h with h1 h2
    exact ⟨fun hr => Option.noConfusion (h2.trans hr), Or.inr (Or.inl h1.symm)⟩
  rw [if_neg c5] at h
  by_cases c6 : env.instancesInSrcMatching = []
  · rw [if_pos c6] at h
    injection h with h1 h2
    exact ⟨fun hr => Option.noConfusion (h2.trans hr),
      Or.inr (Or.inr (Or.inl h1.symm))⟩
  rw [if_neg c6] at h
  by_cases c7 : MAX_INSTANCES_TO_MOVE < env.instancesInSrcMatching.length
  · rw [if_pos c7] at h
    injection h with h1 h2
    exact ⟨fun hr => Option.noConfusion (h2.trans hr),
      Or.inr (Or.inr (Or.inl h1.symm))⟩
  rw [if_neg c7] at h
  by_cases c8 : ((env.instancesInSrcMatching.map InstanceRes.name).any
      (fun n => n ∈ env.instancesInDestMatching.map InstanceRes.name)) = true
  · rw [if_pos c8] at h
    injection h with h1 h2
    exact ⟨fun hr => Option.noConfusion (h2.trans hr),
      Or.inr (Or.inr (Or.inl h1.symm))⟩
  rw [if_neg c8] at h
  by_cases c9 : MAX_DISKS_TO_MOVE <
      (getPersistentDiskNames env.instancesInSrcMatching).length
  · rw [if_pos c9] at h
    injection h with h1 h2
    exact ⟨fun hr => Option.noConfusion (h2.trans hr),
      Or.inr (Or.inr (Or.inr (Or.inl h1.symm)))⟩
  rw [if_neg c9] at h
  by_cases c10 : (disksInUseByOtherInstances env.instancesToIgnore
      (getPersistentDiskNames env.instancesInSrcMatching)) = true
  · rw [if_pos c10] at h
    injection h with h1 h2
    exact ⟨fun hr => Option.noConfusion (h2.trans hr),
      Or.inr (Or.inr (Or.inr (Or.inl h1.symm)))⟩
  rw [if_neg c10] at h
  by_cases c11 : (!env.quotaOk) = true
  · rw [if_pos c11] at h
    injection h with h1 h2
    exact ⟨fun hr => Option.noConfusion (h2.trans hr),
      Or.inr (Or.inr (Or.inr (Or.inr h1.symm)))⟩
  rw [if_neg c11] at h
  by_cases c12 : (!env.confirmOk) = true
  · rw [if_pos c12] at h
    injection h with h1 h2
    exact ⟨fun hr => Option.noConfusion (h2.trans hr),
      Or.inr (Or.inr (Or.inr (Or.inr h1.symm)))⟩
  rw [if_neg c12] at h
  injection h with h1 h2
  exact ⟨fun _ => h1.symm, Or.inr (Or.inr (Or.inr (Or.inr h1.symm)))⟩

lemma moveReads_events (env : MoveEnv) (t : List MoveEvent)
    (ht : t = [] ∨ t = [MoveEvent.getZone env.destination_zone] ∨
      t = moveT0 env ∨ t = moveT1 env ∨ t = moveT2 env) :
    (∀ e ∈ t, e.isMutation = false) ∧
    MoveEvent.writeLog ∉ t ∧ MoveEvent.removeLog ∉ t := by
  rcases ht with rfl | rfl | rfl | rfl | rfl
  · exact ⟨fun e he => absurd he (List.not_mem_nil e), by simp, by simp⟩
  · refine ⟨fun e he => ?_, by simp, by simp⟩
    rcases List.mem_cons.1 he with rfl | he'
    · rfl
    · cases he'
  · refine ⟨fun e he => ?_, by simp [moveT0], by simp [moveT0]⟩
    simp only [moveT0, List.mem_cons, List.not_mem_nil, or_false] at he
    rcases he with rfl | rfl | rfl <;> rfl
  · refine ⟨fun e he => ?_, by simp [moveT1, moveT0], by simp [moveT1, moveT0]⟩
    simp only [moveT1, moveT0, List.mem_append, List.mem_cons,
      List.not_mem_nil, or_false] at he
    rcases he with (rfl | rfl | rfl) | rfl <;> rfl
  · refine ⟨fun e he => ?_, by simp [moveT2, moveT1, moveT0],
      by simp [moveT2, moveT1, moveT0]⟩
    simp only [moveT2, moveT1, moveT0, List.mem_append, List.mem_cons,
      List.not_mem_nil, or_false] at he
    rcases he with ((rfl | rfl | rfl) | rfl) | rfl | rfl | rfl <;> rfl

lemma moveMutations_cases (env : MoveEnv) (m : List MoveEvent)
    (r : Option MoveErr) (h : moveMutations env = (m, r)) :
    (r = none → m = moveM6 env ++ [MoveEvent.removeLog]) ∧
    (r = none ∨ m = moveM1 env ∨ m = moveM2 env ∨ m = moveM3 env ∨
     m = moveM4 env ∨ m = moveM5 env ∨ m = moveM6 env) := by
  simp only [moveMutations] at h
  by_cases c1 : (!env.deleteInstancesOk) = true
  · rw [if_pos c1] at h
    injection h with h1 h2
    exact ⟨fun hr => Option.noConfusion (h2.trans hr), Or.inr (Or.inl h1.symm)⟩
  rw [if_neg c1] at h
  by_cases c2 : (decide (moveSnapMappings env ≠ []) && !env.createSnapshotsOk) = true
  · rw [if_pos c2] at h
    injection h with h1 h2
    exact ⟨fun hr => Option.noConfusion (h2.trans hr),
      Or.inr (Or.inr (Or.inl h1.symm))⟩
  rw [if_neg c2] at h
  by_cases c3 : (decide (moveSnapMappings env ≠ []) && !env.snapshotsReady) = true
  · rw [if_pos c3] at h
    injection h with h1 h2
    exact ⟨fun hr => Option.noConfusion (h2.trans hr),
      Or.inr (Or.inr (Or.inl h1.symm))⟩
  rw [if_neg c3] at h
  by_cases c4 : (decide (moveDiskNames env ≠ []) && !env.deleteDisksOk) = true
  · rw [if_pos c4] at h
    injection h with h1 h2
    exact ⟨fun hr => Option.noConfusion (h2.trans hr),
      Or.inr (Or.inr (Or.inr (Or.inl h1.symm)))⟩
  rw [if_neg c4] at h
  by_cases c5 : (decide (moveSnapMappings env ≠ []) && !env.createDisksOk) = true
  · rw [if_pos c5] at h
    injection h with h1 h2
    exact ⟨fun hr => Option.noConfusion (h2.trans hr),
      Or.inr (Or.inr (Or.inr (Or.inr (Or.inl h1.symm))))⟩
  rw [if_neg c5] at h
  by_cases c6 : (!env.createInstancesOk) = true
  · rw [if_pos c6] at h
    injection h with h1 h2
    exact ⟨fun hr => Option.noConfusion (h2.trans hr),
      Or.inr (Or.inr (Or.inr (Or.inr (Or.inr (Or.inl h1.symm)))))⟩
  rw [if_neg c6] at h
  by_cases c7 : (decide (moveSnapMappings env ≠ []) && !env.keep_snapshots
      && !env.deleteSnapshotsOk) = true
  · rw [if_pos c7] at h
    injection h with h1 h2
    exact ⟨fun hr => Option.noConfusion (h2.trans hr),
      Or.inr (Or.inr (Or.inr (Or.inr (Or.inr (Or.inr h1.symm)))))⟩
  rw [if_neg c7] at h
  injection h with h1 h2
  exact ⟨fun _ => h1.symm, Or.inl h2.symm⟩

lemma moveM6_removeLog (env : MoveEnv) : MoveEvent.removeLog ∉ moveM6 env := by
  simp only [moveM6, moveM5, moveM4, moveM3, moveM2, moveM1]
  by_cases c : moveSnapMappings env = [] <;>
    by_cases d : moveDiskNames env = [] <;>
    by_cases k : env.keep_snapshots = true <;>
    simp [c, d, k]

lemma moveM5_removeLog (env : MoveEnv) : MoveEvent.removeLog ∉ moveM5 env := by
  intro hm
  exact moveM6_removeLog env (by rw [moveM6]; exact List.mem_append_left _ hm)

lemma moveM4_removeLog (env : MoveEnv) : MoveEvent.removeLog ∉ moveM4 env := by
  intro hm
  exact moveM5_removeLog env (by rw [moveM5]; exact List.mem_append_left _ hm)

lemma moveM3_removeLog (env : MoveEnv) : MoveEvent.removeLog ∉ moveM3 env := by
  intro hm
  exact moveM4_removeLog env (by rw [moveM4]; exact List.mem_append_left _ hm)

lemma moveM2_removeLog (env : MoveEnv) : MoveEvent.removeLog ∉ moveM2 env := by
  intro hm
  exact moveM3_removeLog env (by rw [moveM3]; exact List.mem_append_left _ hm)

lemma moveM1_removeLog (env : MoveEnv) : MoveEvent.removeLog ∉ moveM1 env := by
  intro hm
  exact moveM2_removeLog env (by rw [moveM2]; exact List.mem_append_left _ hm)

lemma moveM6_head (env : MoveEnv) :
    ∃ rest, moveM6 env ++ [MoveEvent.removeLog] = MoveEvent.writeLog :: rest := by
  simp only [moveM6, moveM5, moveM4, moveM3, moveM2, moveM1,
    List.cons_append, List.append_assoc]
  exact ⟨_, rfl⟩

lemma moveSaga_pairwise (env : MoveEnv) :
    ((mutationTrace (moveM6 env ++ [MoveEvent.removeLog])).map sagaRank).Pairwise
      (· < ·) := by
  simp only [mutationTrace, moveM6, moveM5, moveM4, moveM3, moveM2, moveM1]
  by_cases c : moveSnapMappings env = [] <;>
    by_cases d : moveDiskNames env = [] <;>
    by_cases k : env.keep_snapshots = true <;>
    (simp [c, d, k, MoveEvent.isMutation, sagaRank]; try decide)

theorem moveinstances_saga :
    (∀ env tr, handleMove env = (tr, none) →
       ∃ reads rest, tr = reads ++ MoveEvent.writeLog :: rest ∧
         (∀ e ∈ reads, e.isMutation = false) ∧
         MoveEvent.writeLog ∉ reads ∧
         tr.getLast? = some MoveEvent.removeLog ∧
         MoveEvent.removeLog ∉ tr.dropLast ∧
         ((mutationTrace tr).map sagaRank).Pairwise (· < ·)) ∧
    (∀ env tr e, handleMove env = (tr, some e) → MoveEvent.removeLog ∉ tr) := by
  constructor
  · intro env tr h
    rcases hpre : movePreChecks env with ⟨t, r⟩
    simp only [handleMove, hpre] at h
    cases r with
    | some e => exact absurd (congrArg Prod.snd h) (by simp)
    | none =>
      rcases hm : moveMutations env with ⟨m, rm⟩
      rw [hm] at h
      injection h with h1 h2
      subst h2
      obtain ⟨hok, -⟩ := moveMutations_cases env m none hm
      obtain rfl := hok rfl
      obtain rfl := (movePreChecks_cases env t none hpre).1 rfl
      obtain ⟨hmut, hwl, hrl⟩ := moveReads_events env (moveT2 env)
        (Or.inr (Or.inr (Or.inr (Or.inr rfl))))
      obtain ⟨rest, hrest⟩ := moveM6_head env
      refine ⟨moveT2 env, rest, ?_, hmut, hwl, ?_, ?_, ?_⟩
      · rw [← h1, hrest]
      · rw [← h1, ← List.append_assoc, List.getLast?_concat]
      · rw [← h1, ← List.append_assoc, List.dropLast_concat]
        intro hmem
        rcases List.mem_append.1 hmem with hmem | hmem
        · exact hrl hmem
        · exact moveM6_removeLog env hmem
      · rw [← h1]
        have hp := moveSaga_pairwise env
        simp only [mutationTrace, List.filter_append] at hp ⊢
        rw [List.filter_eq_nil_iff.2 (fun a ha => by simp [hmut a ha])]
        simpa using hp
  · intro env tr e h
    rcases hpre : movePreChecks env with ⟨t, r⟩
    simp only [handleMove, hpre] at h
    cases r with
    | some e' =>
      injection h with h1 h2
      subst h1
      exact (moveReads_events env t (movePreChecks_cases env t (some e') hpre).2).2.2
    | none =>
      rcases hm : moveMutations env with ⟨m, rm⟩
      rw [hm] at h
      injection h with h1 h2
      subst h1
      subst h2
      intro hmem
      rcases List.mem_append.1 hmem with hmem | hmem
      · exact (moveReads_events env t (movePreChecks_cases env t none hpre).2).2.2 hmem
      · rcases (moveMutations_cases env m (some e) hm).2 with hc | hc | hc | hc | hc | hc | hc
        · exact Option.noConfusion hc
        · exact moveM1_removeLog env (hc ▸ hmem)
        · exact moveM2_removeLog env (hc ▸ hmem)
        · exact moveM3_removeLog env (hc ▸ hmem)
        · exact moveM4_removeLog env (hc ▸ hmem)
        · exact moveM5_removeLog env (hc ▸ hmem)
        · exact moveM6_removeLog env (hc ▸ hmem)

theorem moveinstances_saga_counterexample :
    (handleMove oneInstanceMoveEnv).2 = none ∧
    mutationTrace (handleMove oneInstanceMoveEnv).1 =
      [MoveEvent.deleteInstances ["i1"], MoveEvent.insertSnapshots ["snap-d1"],
       MoveEvent.deleteDisks ["d1"], MoveEvent.insertDisks ["d1"],
       MoveEvent.insertInstances ["i1"], MoveEvent.deleteSnapshots ["snap-d1"]] ∧
    (handleMove oneInstanceMoveEnv).1.findIdx MoveEvent.isSourceDelete <
      (handleMove oneInstanceMoveEnv).1.findIdx MoveEvent.isSnapshotInsert := by
  decide

theorem moveinstances_saga_witness :
    ∃ reads rest,
      [MoveEvent.getZone "zone-b", MoveEvent.listInstances "zone-a",
       MoveEvent.listInstances "zone-b", MoveEvent.listInstances "zone-a",
       MoveEvent.getZone "zone-b", MoveEvent.listMachineTypes,
       MoveEvent.listDisks "zone-a", MoveEvent.writeLog,
       MoveEvent.deleteInstances ["i1"], MoveEvent.insertSnapshots ["snap-d1"],
       MoveEvent.listSnapshots, MoveEvent.deleteDisks ["d1"],
       MoveEvent.insertDisks ["d1"], MoveEvent.insertInstances ["i1"],
       MoveEvent.deleteSnapshots ["snap-d1"], MoveEvent.removeLog] =
        reads ++ MoveEvent.writeLog :: rest ∧
      (∀ e ∈ reads, e.isMutation = false) ∧
      MoveEvent.writeLog ∉ reads ∧
      ([MoveEvent.getZone "zone-b", MoveEvent.listInstances "zone-a",
        MoveEvent.listInstances "zone-b", MoveEvent.listInstances "zone-a",
        MoveEvent.getZone "zone-b", MoveEvent.listMachineTypes,
        MoveEvent.listDisks "zone-a", MoveEvent.writeLog,
        MoveEvent.deleteInstances ["i1"], MoveEvent.insertSnapshots ["snap-d1"],
        MoveEvent.listSnapshots, MoveEvent.deleteDisks ["d1"],
        MoveEvent.insertDisks ["d1"], MoveEvent.insertInstances ["i1"],
        MoveEvent.deleteSnapshots ["snap-d1"],
        MoveEvent.removeLog] : List MoveEvent).getLast? =
        some MoveEvent.removeLog ∧
      MoveEvent.removeLog ∉
        ([MoveEvent.getZone "zone-b", MoveEvent.listInstances "zone-a",
          MoveEvent.listInstances "zone-b", MoveEvent.listInstances "zone-a",
          MoveEvent.getZone "zone-b", MoveEvent.listMachineTypes,
          MoveEvent.listDisks "zone-a", MoveEvent.writeLog,
          MoveEvent.deleteInstances ["i1"], MoveEvent.insertSnapshots ["snap-d1"],
          MoveEvent.listSnapshots, MoveEvent.deleteDisks ["d1"],
          MoveEvent.insertDisks ["d1"], MoveEvent.insertInstances ["i1"],
          MoveEvent.deleteSnapshots ["snap-d1"],
          MoveEvent.removeLog] : List MoveEvent).dropLast ∧
      ((mutationTrace
        [MoveEvent.getZone "zone-b", MoveEvent.listInstances "zone-a",
         MoveEvent.listInstances "zone-b", MoveEvent.listInstances "zone-a",
         MoveEvent.getZone "zone-b", MoveEvent.listMachineTypes,
         MoveEvent.listDisks "zone-a", MoveEvent.writeLog,
         MoveEvent.deleteInstances ["i1"], MoveEvent.insertSnapshots ["snap-d1"],
         MoveEvent.listSnapshots, MoveEvent.deleteDisks ["d1"],
         MoveEvent.insertDisks ["d1"], MoveEvent.insertInstances ["i1"],
         MoveEvent.deleteSnapshots ["snap-d1"],
         MoveEvent.removeLog]).map sagaRank).Pairwise (· < ·) :=
  moveinstances_saga.1 oneInstanceMoveEnv _ (by decide)

lemma resumePreChecks_cases (env : ResumeEnv) (t : List MoveEvent)
    (r : Option MoveErr) (h : resumePreChecks env = (t, r)) :
    (r = none → t = resT3 env) ∧
    (t = [] ∨ t = resT0 env ∨ t = resT3 env) ∧
    (resInstancesToMv env = [] →
      r = some MoveErr.commandError ∧ (t = [] ∨ t = resT0 env)) := by
  simp only [resumePreChecks] at h
  by_cases c1 : (!env.logExists) = true
  · rw [if_pos c1] at h
    injection h with h1 h2
    exact ⟨fun hr => Option.noConfusion (h2.trans hr), Or.inl h1.symm,
      fun _ => ⟨h2.symm, Or.inl h1.symm⟩⟩
  rw [if_neg c1] at h
  by_cases c2 : resInstancesToMv env = []
  · rw [if_pos c2] at h
    injection h with h1 h2
    exact ⟨fun hr => Option.noConfusion (h2.trans hr), Or.inr (Or.inl h1.symm),
      fun _ => ⟨h2.symm, Or.inr h1.symm⟩⟩
  rw [if_neg c2] at h
  by_cases c3 : (!env.quotaOk) = true
  · rw [if_pos c3] at h
    injection h with h1 h2
    exact ⟨fun hr => Option.noConfusion (h2.trans hr), Or.inr (Or.inr h1.symm),
      fun hs => absurd hs c2⟩
  rw [if_neg c3] at h
  by_cases c4 : (!env.confirmOk) = true
  · rw [if_pos c4] at h
    injection h with h1 h2
    exact ⟨fun hr => Option.noConfusion (h2.trans hr), Or.inr (Or.inr h1.symm),
      fun hs => absurd hs c2⟩
  rw [if_neg c4] at h
  injection h with h1 h2
  exact ⟨fun _ => h1.symm, Or.inr (Or.inr h1.symm), fun hs => absurd hs c2⟩

lemma resReads_events (env : ResumeEnv) (t : List MoveEvent)
    (ht : t = [] ∨ t = resT0 env ∨ t = resT3 env) :
    (∀ e ∈ t, e.isMutation = false) ∧
    (∀ ns, MoveEvent.insertInstances ns ∉ t) := by
  rcases ht with rfl | rfl | rfl
  · exact ⟨fun e he => absurd he (List.not_mem_nil e), fun ns => List.not_mem_nil _⟩
  · refine ⟨fun e he => ?_, fun ns => by simp [resT0]⟩
    simp only [resT0, List.mem_cons, List.not_mem_nil, or_false] at he
    rcases he with rfl | rfl <;> rfl
  · by_cases hd : resDisksToMv env = []
    · refine ⟨fun e he => ?_, fun ns => by simp [resT3, resT2, resT1, resT0, hd]⟩
      cases e <;> simp_all [MoveEvent.isMutation, resT3, resT2, resT1, resT0]
    · refine ⟨fun e he => ?_, fun ns => by simp [resT3, resT2, resT1, resT0, hd]⟩
      cases e <;> simp_all [MoveEvent.isMutation, resT3, resT2, resT1, resT0]

lemma resM1_noInsert (env : ResumeEnv) (ns : List String) :
    MoveEvent.insertInstances ns ∉ resM1 env := by
  by_cases c : resInstancesToDelete env = [] <;> simp [resM1, c]

lemma resM2_noInsert (env : ResumeEnv) (ns : List String) :
    MoveEvent.insertInstances ns ∉ resM2 env := by
  intro hm
  rw [resM2] at hm
  rcases List.mem_append.1 hm with hm | hm
  · exact resM1_noInsert env ns hm
  · by_cases c : resUnmovedSnaps env = [] <;> simp [c] at hm
  
lemma resM3_noInsert (env : ResumeEnv) (ns : List String) :
    MoveEvent.insertInstances ns ∉ resM3 env := by
  intro hm
  rw [resM3] at hm
  rcases List.mem_append.1 hm with hm | hm
  · exact resM2_noInsert env ns hm
  · by_cases c : resDisksToMv env = [] <;> simp [c] at hm

lemma resM4_noInsert (env : ResumeEnv) (ns : List String) :
    MoveEvent.insertInstances ns ∉ resM4 env := by
  intro hm
  rw [resM4] at hm
  rcases List.mem_append.1 hm with hm | hm
  · exact resM3_noInsert env ns hm
  · simp at hm

lemma resM5_noInsert (env : ResumeEnv) (ns : List String) :
    MoveEvent.insertInstances ns ∉ resM5 env := by
  intro hm
  rw [resM5] at hm
  rcases List.mem_append.1 hm with hm | hm
  · exact resM4_noInsert env ns hm
  · by_cases c : resDisksToCreate env = [] <;> simp [c] at hm

lemma resM6_insert (env : ResumeEnv) (ns : List String)
    (hm : MoveEvent.insertInstances ns ∈ resM6 env) :
    ns = (resInstancesToMv env).map InstanceRes.name := by
  rw [resM6] at hm
  rcases List.mem_append.1 hm with hm | hm
  · exact absurd hm (resM5_noInsert env ns)
  · rcases List.mem_cons.1 hm with he | he
    · injection he
    · cases he

lemma resM7_insert (env : ResumeEnv) (ns : List String)
    (hm : MoveEvent.insertInstances ns ∈ resM7 env) :
    ns = (resInstancesToMv env).map InstanceRes.name := by
  rw [resM7] at hm
  rcases List.mem_append.1 hm with hm | hm
  · exact resM6_insert env ns hm
  · by_cases c : (decide (resDisksToCreate env = []) || env.keep_snapshots) = true <;>
      simp [c] at hm

lemma resumeMutations_cases (env : ResumeEnv) (m : List MoveEvent)
    (r : Option MoveErr) (h : resumeMutations env = (m, r)) :
    (r = none →
      m = resM7 env ++ (if env.keep_log_file then [] else [MoveEvent.removeLog])) ∧
    (r = none ∨ m = resM1 env ∨ m = resM2 env ∨ m = resM3 env ∨
     m = resM5 env ∨ m = resM6 env ∨ m = resM7 env) := by
  simp only [resumeMutations] at h
  by_cases c1 : (decide (resInstancesToDelete env ≠ []) && !env.deleteInstancesOk) = true
  · rw [if_pos c1] at h
    injection h with h1 h2
    exact ⟨fun hr => Option.noConfusion (h2.trans hr), Or.inr (Or.inl h1.symm)⟩
  rw [if_neg c1] at h
  by_cases c2 : (decide (resUnmovedSnaps env ≠ []) && !env.createSnapshotsOk) = true
  · rw [if_pos c2] at h
    injection h with h1 h2
    exact ⟨fun hr => Option.noConfusion (h2.trans hr),
      Or.inr (Or.inr (Or.inl h1.symm))⟩
  rw [if_neg c2] at h
  by_cases c3 : (decide (resUnmovedSnaps env ≠ []) && !env.snapshotsReady) = true
  · rw [if_pos c3] at h
    injection h with h1 h2
    exact ⟨fun hr => Option.noConfusion (h2.trans hr),
      Or.inr (Or.inr (Or.inl h1.symm))⟩
  rw [if_neg c3] at h
  by_cases c4 : (decide (resDisksToMv env ≠ []) && !env.deleteDisksOk) = true
  · rw [if_pos c4] at h
    injection h with h1 h2
    exact ⟨fun hr => Option.noConfusion (h2.trans hr),
      Or.inr (Or.inr (Or.inr (Or.inl h1.symm)))⟩
  rw [if_neg c4] at h
  by_cases c5 : (decide (resDisksToCreate env ≠ []) && !env.createDisksOk) = true
  · rw [if_pos c5] at h
    injection h with h1 h2
    exact ⟨fun hr => Option.noConfusion (h2.trans hr),
      Or.inr (Or.inr (Or.inr (Or.inr (Or.inl h1.symm))))⟩
  rw [if_neg c5] at h
  by_cases c6 : (!env.createInstancesOk) = true
  · rw [if_pos c6] at h
    injection h with h1 h2
    exact ⟨fun hr => Option.noConfusion (h2.trans hr),
      Or.inr (Or.inr (Or.inr (Or.inr (Or.inr (Or.inl h1.symm)))))⟩
  rw [if_neg c6] at h
  by_cases c7 : (decide (resDisksToCreate env ≠ []) && !env.keep_snapshots
      && !env.deleteSnapshotsOk) = true
  · rw [if_pos c7] at h
    injection h with h1 h2
    exact ⟨fun hr => Option.noConfusion (h2.trans hr),
      Or.inr (Or.inr (Or.inr (Or.inr (Or.inr (Or.inr h1.symm)))))⟩
  rw [if_neg c7] at h
  injection h with h1 h2
  exact ⟨fun _ => h1.symm, Or.inl h2.symm⟩

lemma subtract_names_disjoint (l d : List InstanceRes) (n : String)
    (hn : n ∈ (subtractByName l d).map InstanceRes.name) :
    n ∉ d.map InstanceRes.name := by
  rcases List.mem_map.1 hn with ⟨j, hj, rfl⟩
  have := List.mem_filter.1 hj
  simpa using this.2

theorem resumemove_by_name :
    (∀ (env : ResumeEnv) (i : InstanceRes) (tr : List MoveEvent)
        (r : Option MoveErr) (ns : List String),
       i ∈ env.loggedInstances →
       i.name ∈ env.instancesInDest.map InstanceRes.name →
       resumeHandleMove env = (tr, r) →
       MoveEvent.insertInstances ns ∈ tr → i.name ∉ ns) ∧
    (∀ env : ResumeEnv,
       (∀ i ∈ env.loggedInstances,
         i.name ∈ env.instancesInDest.map InstanceRes.name) →
       (resumeHandleMove env).2 = some MoveErr.commandError ∧
       ∀ e ∈ (resumeHandleMove env).1, e.isMutation = false) := by
  constructor
  · intro env i tr r ns hi hname h hmem
    rcases hpre : resumePreChecks env with ⟨t, rp⟩
    simp only [resumeHandleMove, hpre] at h
    cases rp with
    | some e =>
      injection h with h1 h2
      rw [← h1] at hmem
      exact absurd hmem
        ((resReads_events env t (resumePreChecks_cases env t (some e) hpre).2.1).2 ns)
    | none =>
      rcases hm : resumeMutations env with ⟨m, rm⟩
      rw [hm] at h
      injection h with h1 h2
      rw [← h1] at hmem
      rcases List.mem_append.1 hmem with hmem | hmem
      · exact absurd hmem
          ((resReads_events env t (resumePreChecks_cases env t none hpre).2.1).2 ns)
      · have hns : ns = (resInstancesToMv env).map InstanceRes.name := by
          rcases (resumeMutations_cases env m rm hm).2 with hc | hc | hc | hc | hc | hc | hc
          · obtain hm7 := (resumeMutations_cases env m rm hm).1 hc
            rw [hm7] at hmem
            rcases List.mem_append.1 hmem with hmem | hmem
            · exact resM7_insert env ns hmem
            · by_cases k : env.keep_log_file = true <;> simp [k] at hmem
          · rw [hc] at hmem
            exact absurd hmem (resM1_noInsert env ns)
          · rw [hc] at hmem
            exact absurd hmem (resM2_noInsert env ns)
          · rw [hc] at hmem
            exact absurd hmem (resM3_noInsert env ns)
          · rw [hc] at hmem
            exact absurd hmem (resM5_noInsert env ns)
          · rw [hc] at hmem
            exact resM6_insert env ns hmem
          · rw [hc] at hmem
            exact resM7_insert env ns hmem
        rw [hns]
        intro hin
        exact subtract_names_disjoint env.loggedInstances env.instancesInDest
          i.name hin hname
  · intro env hall
    have hsub : resInstancesToMv env = [] := by
      rw [resInstancesToMv, subtractByName]
      refine List.filter_eq_nil_iff.2 ?_
      intro a ha
      simpa using hall a ha
    rcases hpre : resumePreChecks env with ⟨t, rp⟩
    obtain ⟨hr, ht⟩ := (resumePreChecks_cases env t rp hpre).2.2 hsub
    subst hr
    simp only [resumeHandleMove, hpre]
    exact ⟨trivial, (resReads_events env t (Or.imp_right Or.inl ht)).1⟩

theorem resumemove_by_name_witness :
    (resumeHandleMove allMovedResumeEnv).2 = some MoveErr.commandError ∧
    ∀ e ∈ (resumeHandleMove allMovedResumeEnv).1, e.isMutation = false :=
  resumemove_by_name.2 allMovedResumeEnv (by decide)

end Gcutil
